import Mathlib

/-!
Verification of the resource-table decoding and re-encoding engine of the
nefile library (src/nefile).  The Python source is shallowly embedded:

* the shared random-access byte source is modelled after the `mmap` object
  that `nefile.NE` opens over the executable (`seek` past the end raises,
  `read` returns the available bytes without error);
* `self_documenting_struct`'s `unpack` helpers fail when fewer bytes than
  requested remain, and its `pack` helpers fail on out-of-range values,
  mirroring Python's `struct` module;
* Python exceptions are modelled with `Except String`; the error strings
  paraphrase the source messages (apostrophes removed);
* Python dictionaries are association lists with insertion-order semantics:
  updating an existing key keeps its position and replaces its value;
* filesystem effects are modelled as the list of `(path, contents)` pairs a
  call writes.  The library's failing exports are modelled as writing
  nothing; the claims settled here only inspect successful exports or
  failures that the source raises before any `open` call.
-/

namespace NE

/-- A byte stream with mmap semantics: `data` is the immutable byte content
and `pos` the cursor. -/
structure Stream where
  data : List Nat
  pos : Nat
deriving Repr, DecidableEq

/-- `mmap.seek`: seeking past the end of the mapping raises `ValueError`. -/
def Stream.seek (s : Stream) (p : Nat) : Except String Stream :=
  if p ≤ s.data.length then .ok ⟨s.data, p⟩ else .error "seek out of range"

/-- `mmap.read(n)`: returns up to `n` bytes, advancing by however many were
actually available. -/
def Stream.readBytes (s : Stream) (n : Nat) : List Nat × Stream :=
  let chunk := (s.data.drop s.pos).take n
  (chunk, ⟨s.data, s.pos + chunk.length⟩)

/-- Little-endian byte list to number. -/
def bytesToNatLE : List Nat → Nat
  | [] => 0
  | b :: rest => b + 256 * bytesToNatLE rest

/-- Number to `k` little-endian bytes. -/
def natToBytesLE : Nat → Nat → List Nat
  | 0, _ => []
  | k + 1, v => (v % 256) :: natToBytesLE k (v / 256)

/-- `struct.unpack` over a stream read: fails when fewer than `n` bytes
remain (Python's `struct.error`). -/
def Stream.unpackN (s : Stream) (n : Nat) : Except String (Nat × Stream) :=
  let (chunk, s') := s.readBytes n
  if chunk.length = n then .ok (bytesToNatLE chunk, s')
  else .error "unpack requires more bytes"

def unpackUInt8 (s : Stream) : Except String (Nat × Stream) := s.unpackN 1

def unpackUInt16LE (s : Stream) : Except String (Nat × Stream) := s.unpackN 2

def unpackUInt32LE (s : Stream) : Except String (Nat × Stream) := s.unpackN 4

/-- Reinterpret a `w`-bit unsigned value as two's-complement signed. -/
def toSigned (w : Nat) (v : Nat) : Int :=
  if v < 2 ^ (w - 1) then (v : Int) else (v : Int) - 2 ^ w

def unpackInt16LE (s : Stream) : Except String (Int × Stream) :=
  (s.unpackN 2).map fun vs => (toSigned 16 vs.1, vs.2)

def unpackInt32LE (s : Stream) : Except String (Int × Stream) :=
  (s.unpackN 4).map fun vs => (toSigned 32 vs.1, vs.2)

/-- `struct.pack` of an unsigned `byteCount`-byte value: raises on values
out of range. -/
def packUInt (byteCount : Nat) (v : Nat) : Except String (List Nat) :=
  if v < 256 ^ byteCount then .ok (natToBytesLE byteCount v)
  else .error "pack argument out of range"

def packU8 (v : Nat) : Except String (List Nat) := packUInt 1 v

def packU16 (v : Nat) : Except String (List Nat) := packUInt 2 v

def packU32 (v : Nat) : Except String (List Nat) := packUInt 4 v

/-- `struct.pack` of an `Int` into an unsigned field (used where the library
feeds signed DIB header fields to unsigned pack calls). -/
def packIntU (byteCount : Nat) (v : Int) : Except String (List Nat) :=
  if 0 ≤ v ∧ v < (256 : Int) ^ byteCount then .ok (natToBytesLE byteCount v.toNat)
  else .error "pack argument out of range"

/-- Read the little-endian 16-bit value stored at `pos` of a byte list
(missing bytes read as 0; used only to state theorems). -/
def readU16At (l : List Nat) (pos : Nat) : Nat :=
  l.getD pos 0 + 256 * l.getD (pos + 1) 0

/-- Read the little-endian 32-bit value stored at `pos` of a byte list. -/
def readU32At (l : List Nat) (pos : Nat) : Nat :=
  l.getD pos 0 + 256 * (l.getD (pos + 1) 0 + 256 * (l.getD (pos + 2) 0 +
    256 * l.getD (pos + 3) 0))

/-- Read the little-endian signed 32-bit value stored at `pos`. -/
def readI32At (l : List Nat) (pos : Nat) : Int :=
  toSigned 32 (readU32At l pos)

/-- Python dict lookup (keys are unique, so the first match decides). -/
def dictGet {α β : Type} [DecidableEq α] : List (α × β) → α → Option β
  | [], _ => none
  | p :: rest, k => if p.1 = k then some p.2 else dictGet rest k

/-- Python `dict.update({k: v})`: an existing key keeps its insertion
position and gets the new value; a new key is appended. -/
def dictUpdate {α β : Type} [DecidableEq α] : List (α × β) → α → β → List (α × β)
  | [], k, v => [(k, v)]
  | p :: rest, k, v => if p.1 = k then (k, v) :: rest else p :: dictUpdate rest k v

/-- The built-in NE resource types (`nefile.resource_table.ResourceType`). -/
inductive ResourceType where
  | RT_CURSOR | RT_BITMAP | RT_ICON | RT_MENU | RT_DIALOG | RT_STRING
  | RT_FONTDIR | RT_FONT | RT_ACCELERATOR | RT_RCDATA | RT_MESSAGETABLE
  | RT_GROUP_CURSOR | RT_GROUP_ICON | RT_VERSION
deriving Repr, DecidableEq

/-- The numeric code of each built-in resource type. -/
def ResourceType.value : ResourceType → Nat
  | .RT_CURSOR => 1
  | .RT_BITMAP => 2
  | .RT_ICON => 3
  | .RT_MENU => 4
  | .RT_DIALOG => 5
  | .RT_STRING => 6
  | .RT_FONTDIR => 7
  | .RT_FONT => 8
  | .RT_ACCELERATOR => 9
  | .RT_RCDATA => 10
  | .RT_MESSAGETABLE => 11
  | .RT_GROUP_CURSOR => 12
  | .RT_GROUP_ICON => 14
  | .RT_VERSION => 16

/-- Python `for resource_type in ResourceType` iterates in definition
order, which is also numeric order. -/
def ResourceType.all : List ResourceType :=
  [.RT_CURSOR, .RT_BITMAP, .RT_ICON, .RT_MENU, .RT_DIALOG, .RT_STRING,
   .RT_FONTDIR, .RT_FONT, .RT_ACCELERATOR, .RT_RCDATA, .RT_MESSAGETABLE,
   .RT_GROUP_CURSOR, .RT_GROUP_ICON, .RT_VERSION]

/-- `ResourceType.has_value`. -/
def ResourceType.hasValue (v : Nat) : Bool :=
  ResourceType.all.any fun t => decide (t.value = v)

/-- `ResourceType(value)` for values the enum contains. -/
def ResourceType.fromValue? (v : Nat) : Option ResourceType :=
  ResourceType.all.find? fun t => decide (t.value = v)

/-- A resource id: an integer (high bit set in the raw field) or a resolved
name string. -/
inductive ResId where
  | num (n : Nat)
  | str (s : String)
deriving Repr, DecidableEq

/-- How Python's f-string renders a resource id. -/
def ResId.pyStr : ResId → String
  | .num n => toString n
  | .str s => s

/-- A resource type key: a `ResourceType` member, a bare integer code, or a
resolved name string (the possible values of `type_code`). -/
inductive TypeKey where
  | rt (t : ResourceType)
  | num (n : Nat)
  | str (s : String)
deriving Repr, DecidableEq

/-- Truncate a byte run at the first embedded zero byte
(`buffer.find(b'\x00')` followed by the slice in `ResourceString`). -/
def truncateAtZero (bs : List Nat) : List Nat :=
  bs.takeWhile fun b => decide (b ≠ 0)

/-- `bytes.decode('ascii')`: succeeds only when every byte is below 128. -/
def decodeAscii (bs : List Nat) : Except String String :=
  if bs.all fun b => decide (b < 128) then
    .ok (String.mk (bs.map Char.ofNat))
  else .error "ascii codec cannot decode byte"

/-- `nefile.resource_table.ResourceString`: a position-preserving Pascal
string read.  Saves the cursor, seeks to the absolute offset, reads one
length byte then that many bytes, truncates at an embedded zero, decodes as
ASCII and restores the cursor.  A raised error leaves the cursor where the
failure occurred, exactly as in the source. -/
def ResourceString.read (s : Stream) (offsetFromStreamStart : Nat) :
    Except String (String × Stream) := do
  let saved := s.pos
  let s ← s.seek offsetFromStreamStart
  let (stringLength, s) ← unpackUInt8 s
  if stringLength > 0 then
    let (buffer, s) := s.readBytes stringLength
    let buffer := truncateAtZero buffer
    let str ← decodeAscii buffer
    let s ← s.seek saved
    .ok (str, s)
  else
    let s ← s.seek saved
    .ok ("", s)

/-- `nefile.resource_table.ResourceDeclaration` after construction.  The
`flags` word is kept raw: the source stores it in an `IntFlag` and never
reads it again. -/
structure ResourceDeclaration where
  data_start_offset : Nat
  resource_length_in_bytes : Nat
  flags : Nat
  id : ResId
deriving Repr, DecidableEq

/-- `ResourceDeclaration.__init__`: offset and length are the raw 16-bit
fields left-shifted by the table's alignment shift count; the id field is
an integer when its high bit is set, otherwise an indirect string offset
relative to the resource table start. -/
def ResourceDeclaration.parse (s : Stream) (alignmentShiftCount : Nat)
    (resourceTableStartOffset : Nat) :
    Except String (ResourceDeclaration × Stream) := do
  let (rawOffset, s) ← unpackUInt16LE s
  let dataStartOffset := rawOffset <<< alignmentShiftCount
  let (rawLength, s) ← unpackUInt16LE s
  let resourceLength := rawLength <<< alignmentShiftCount
  let (flags, s) ← unpackUInt16LE s
  let (rawIdData, s) ← unpackUInt16LE s
  let (theId, s) ←
    if rawIdData &&& 0x8000 ≠ 0 then
      pure (ResId.num (rawIdData &&& 0x7fff), s)
    else do
      let (str, s) ← ResourceString.read s (resourceTableStartOffset + rawIdData)
      pure (ResId.str str, s)
  let (_reserved, s) := s.readBytes 4
  .ok (⟨dataStartOffset, resourceLength, flags, theId⟩, s)

/-- Read `n` resource declarations in sequence (the loop at the end of
`ResourceTypeTable.__init__`). -/
def parseDeclarations : Nat → Stream → Nat → Nat →
    Except String (List ResourceDeclaration × Stream)
  | 0, s, _, _ => .ok ([], s)
  | n + 1, s, shift, start => do
    let (d, s) ← ResourceDeclaration.parse s shift start
    let (ds, s) ← parseDeclarations n s shift start
    .ok (d :: ds, s)

/-- `nefile.resource_table.ResourceTypeTable` (one non-sentinel entry). -/
structure ResourceTypeTable where
  type_code : TypeKey
  resource_declarations : List ResourceDeclaration
deriving Repr, DecidableEq

/-- `ResourceTypeTable.__init__`: `none` models the `is_end_flag` entry
produced by the `0x0000` sentinel. -/
def ResourceTypeTable.parse (s : Stream) (alignmentShiftCount : Nat)
    (resourceTableStartOffset : Nat) :
    Except String (Option ResourceTypeTable × Stream) := do
  let (rawTypeData, s) ← unpackUInt16LE s
  if rawTypeData = 0 then
    .ok (none, s)
  else do
    let (typeCode, s) ←
      if rawTypeData &&& 0x8000 ≠ 0 then
        let integerTypeCode := rawTypeData &&& 0x7fff
        match ResourceType.fromValue? integerTypeCode with
        | some t => pure (TypeKey.rt t, s)
        | none => pure (TypeKey.num integerTypeCode, s)
      else do
        let (str, s) ← ResourceString.read s (resourceTableStartOffset + rawTypeData)
        pure (TypeKey.str str, s)
    let (resourceCount, s) ← unpackUInt16LE s
    let (_reserved, s) := s.readBytes 4
    let (decls, s) ← parseDeclarations resourceCount s alignmentShiftCount
      resourceTableStartOffset
    .ok (some ⟨typeCode, decls⟩, s)

/-- The `while not resource_type.is_end_flag` loop of
`ResourceTable.__init__`, with fuel bounding the iteration count.  Each
iteration consumes at least the two bytes of the raw type word, so fuel
`s.data.length + 1` can never be exhausted before the stream is; running
out of fuel is reported as the same error a truncated stream produces.
The accumulator is the growing `resource_type_tables` dict; the dictionary
key the source computes on line 78 is always `type_code` itself (an enum
member never satisfies `has_value`, and non-enum codes fall through). -/
def parseTypeTables : Nat → Stream → Nat → Nat →
    List (TypeKey × ResourceTypeTable) →
    Except String (List (TypeKey × ResourceTypeTable) × Stream)
  | 0, _, _, _, _ => .error "unpack requires more bytes"
  | fuel + 1, s, shift, start, acc => do
    let (tt, s) ← ResourceTypeTable.parse s shift start
    match tt with
    | none => .ok (acc, s)
    | some tt => parseTypeTables fuel s shift start (dictUpdate acc tt.type_code tt)

/-- `nefile.resource_table.ResourceTable` right after `__init__` (before
any resource payload is parsed).  `resource_type_tables` is the Python dict
keyed by `type_code`. -/
structure ParsedResourceTable where
  resource_table_start_offset : Nat
  alignment_shift_count : Nat
  resource_type_tables : List (TypeKey × ResourceTypeTable)
deriving Repr, DecidableEq

/-- `ResourceTable.__init__` metadata scan: read the 16-bit alignment shift
count, mask it to its low 8 bits, then read type tables until the sentinel.
(The Python loop inserts each table as it is read; `dictUpdate` onto the
recursively-parsed tail reproduces the same first-insertion order.) -/
def ResourceTable.parse (s : Stream) : Except String (ParsedResourceTable × Stream) := do
  let start := s.pos
  let (rawShift, s) ← unpackUInt16LE s
  let alignmentShiftCount := rawShift &&& 0x00ff
  let (tables, s) ← parseTypeTables (s.data.length + 1) s alignmentShiftCount start []
  .ok (⟨start, alignmentShiftCount, tables⟩, s)

/-- `nefile.resources.bitmap.BitmapInfoHeader` (the 40-byte modern DIB
header). -/
structure BitmapInfoHeader where
  header_length : Nat
  width : Int
  height : Int
  color_planes : Nat
  bits_per_pixel : Nat
  compression_method : Nat
  image_size : Nat
  horizontal_resolution : Int
  vertical_resolution : Int
  total_palette_colors : Nat
  total_important_colors : Nat
deriving Repr, DecidableEq

/-- `BitmapInfoHeader.__init__`: reads the declared length first and raises
unless it equals 0x28, then reads the remaining fields. -/
def BitmapInfoHeader.parse (s : Stream) : Except String (BitmapInfoHeader × Stream) := do
  let (headerLength, s) ← unpackUInt32LE s
  if headerLength ≠ 0x28 then
    .error "BitmapInfoHeader does not have expected length."
  else do
    let (width, s) ← unpackInt32LE s
    let (height, s) ← unpackInt32LE s
    let (colorPlanes, s) ← unpackUInt16LE s
    let (bitsPerPixel, s) ← unpackUInt16LE s
    let (compressionMethod, s) ← unpackUInt32LE s
    let (imageSize, s) ← unpackUInt32LE s
    let (hRes, s) ← unpackInt32LE s
    let (vRes, s) ← unpackInt32LE s
    let (paletteColors, s) ← unpackUInt32LE s
    let (importantColors, s) ← unpackUInt32LE s
    .ok (⟨headerLength, width, height, colorPlanes, bitsPerPixel,
      compressionMethod, imageSize, hRes, vRes, paletteColors,
      importantColors⟩, s)

/-- `nefile.resources.bitmap.BitmapCoreHeader` (the 12-byte legacy DIB
header). -/
structure BitmapCoreHeader where
  header_length : Nat
  width : Int
  height : Int
  color_planes : Nat
  bits_per_pixel : Nat
deriving Repr, DecidableEq

/-- `BitmapCoreHeader.__init__`: raises unless the declared length equals
0x0c. -/
def BitmapCoreHeader.parse (s : Stream) : Except String (BitmapCoreHeader × Stream) := do
  let (headerLength, s) ← unpackUInt32LE s
  if headerLength ≠ 0x0c then
    .error "BitmapCoreHeader does not have expected length."
  else do
    let (width, s) ← unpackInt16LE s
    let (height, s) ← unpackInt16LE s
    let (colorPlanes, s) ← unpackUInt16LE s
    let (bitsPerPixel, s) ← unpackUInt16LE s
    .ok (⟨headerLength, width, height, colorPlanes, bitsPerPixel⟩, s)

/-- The two mutually exclusive DIB header shapes a decoded bitmap can
carry. -/
inductive DIBHeader where
  | info (h : BitmapInfoHeader)
  | core (h : BitmapCoreHeader)
deriving Repr, DecidableEq

/-- `nefile.resources.bitmap.Bitmap` after decode. -/
structure Bitmap where
  resource_id : ResId
  bitmap_header : DIBHeader
  has_bitmap_core_header : Bool
  data : List Nat
deriving Repr, DecidableEq

/-- `Bitmap.__init__`: try the modern header; on any failure rewind and try
the legacy header (the source catches with a bare `except:`); then rewind
again and retain the full declared-length payload verbatim. -/
def Bitmap.parse (s : Stream) (decl : ResourceDeclaration) : Except String Bitmap := do
  let headerStart := s.pos
  let (hdr, hasCore, s) ←
    match BitmapInfoHeader.parse s with
    | .ok (h, s) => pure (DIBHeader.info h, false, s)
    | .error _ => do
      let s ← s.seek headerStart
      let (h, s) ← BitmapCoreHeader.parse s
      pure (DIBHeader.core h, true, s)
  let s ← s.seek headerStart
  let (data, _) := s.readBytes decl.resource_length_in_bytes
  .ok ⟨decl.id, hdr, hasCore, data⟩

/-- `nefile.resources.icon.Icon` after decode.  Note: unlike `Bitmap`, the
source parses only a `BitmapInfoHeader` here, with no legacy fallback, and
the class carries no group-membership attribute. -/
structure Icon where
  resource_id : ResId
  bitmap_header : BitmapInfoHeader
  data : List Nat
deriving Repr, DecidableEq

/-- `Icon.__init__`. -/
def Icon.parse (s : Stream) (decl : ResourceDeclaration) : Except String Icon := do
  let resourceStart := s.pos
  let (h, s) ← BitmapInfoHeader.parse s
  let s ← s.seek resourceStart
  let (data, _) := s.readBytes decl.resource_length_in_bytes
  .ok ⟨decl.id, h, data⟩

/-- `nefile.resources.cursor.Cursor` after decode (a `Bitmap` subclass with
a hotspot pair and the `is_in_group` flag). -/
structure Cursor where
  is_in_group : Bool
  x_hotspot : Nat
  y_hotspot : Nat
  resource_id : ResId
  bitmap_header : DIBHeader
  has_bitmap_core_header : Bool
  data : List Nat
deriving Repr, DecidableEq

/-- `Cursor.__init__`: set `is_in_group = False`, read the two 16-bit
hotspot words, then run `Bitmap.__init__` from the position after them. -/
def Cursor.parse (s : Stream) (decl : ResourceDeclaration) : Except String Cursor := do
  let (x, s) ← unpackUInt16LE s
  let (y, s) ← unpackUInt16LE s
  let b ← Bitmap.parse s decl
  .ok ⟨false, x, y, b.resource_id, b.bitmap_header, b.has_bitmap_core_header, b.data⟩

/-- `nefile.resources.application_defined_data.ApplicationDefinedData`:
the raw/opaque decoder; a plain read that never raises. -/
structure ApplicationDefinedData where
  data : List Nat
deriving Repr, DecidableEq

def ApplicationDefinedData.parse (s : Stream) (decl : ResourceDeclaration) :
    Except String ApplicationDefinedData :=
  .ok ⟨(s.readBytes decl.resource_length_in_bytes).1⟩

/-- `bytes.decode('latin-1')`: total, each byte maps to the same code
point. -/
def decodeLatin1 (bs : List Nat) : String :=
  String.mk (bs.map Char.ofNat)

/-- `nefile.resources.string.StringTable`. -/
structure StringTable where
  strings : List (Option String)
deriving Repr, DecidableEq

/-- One slot of the 16-string block. -/
def stringTableSlot (s : Stream) : Except String (Option String × Stream) := do
  let (stringLength, s) ← unpackUInt8 s
  if stringLength > 0 then
    let (bs, s) := s.readBytes stringLength
    .ok (some (decodeLatin1 bs), s)
  else
    .ok (none, s)

def stringTableSlots : Nat → Stream → Except String (List (Option String) × Stream)
  | 0, s => .ok ([], s)
  | n + 1, s => do
    let (slot, s) ← stringTableSlot s
    let (rest, s) ← stringTableSlots n s
    .ok (slot :: rest, s)

/-- `StringTable.__init__`: exactly 16 slots, empty slots kept as `None`. -/
def StringTable.parse (s : Stream) (_decl : ResourceDeclaration) :
    Except String StringTable :=
  (stringTableSlots 16 s).map fun r => ⟨r.1⟩

/-- `nefile.resources.icon.IconDirectory` (ICONDIR / GRPICONDIR). -/
structure IconDirectory where
  signature : Nat
  type : Nat
  icon_count : Nat
deriving Repr, DecidableEq

def IconDirectory.LENGTH_IN_BYTES : Nat := 0x06

/-- The field values `IconDirectory.__init__` assigns before any decode. -/
def IconDirectory.init : IconDirectory := ⟨0x0000, 0x0001, 0x0000⟩

/-- `IconDirectory.decode`: the `assert self.signature == 0x0000` raises
`AssertionError` on a nonzero signature. -/
def IconDirectory.decode (s : Stream) : Except String (IconDirectory × Stream) := do
  let (signature, s) ← unpackUInt16LE s
  if signature ≠ 0x0000 then .error "AssertionError"
  else do
    let (ty, s) ← unpackUInt16LE s
    let (iconCount, s) ← unpackUInt16LE s
    .ok (⟨signature, ty, iconCount⟩, s)

/-- `IconDirectory.encode`. -/
def IconDirectory.encode (d : IconDirectory) : Except String (List Nat) := do
  let b1 ← packU16 d.signature
  let b2 ← packU16 d.type
  let b3 ← packU16 d.icon_count
  .ok (b1 ++ b2 ++ b3)

/-- `nefile.resources.icon.IconDirectoryEntry`.  `width` and `height` are
`Int` because the synthesized entry of a standalone icon copies them from
the signed DIB header; the id/offset fields keep the `None` the
constructor assigns until a decode or a synthesis fills them. -/
structure IconDirectoryEntry where
  width : Int
  height : Int
  total_palette_colors : Nat
  color_planes : Nat
  bits_per_pixel : Nat
  icon_size_in_bytes : Nat
  icon_resource_id : Option Nat
  bitmap_start_offset : Option Nat
deriving Repr, DecidableEq

def IconDirectoryEntry.LENGTH_IN_BYTES : Nat := 0x10

def IconDirectoryEntry.GROUP_LENGTH_IN_BYTES : Nat := 0x0e

/-- `IconDirectoryEntry.decode`: the group variant ends with a 16-bit
resource id, the plain variant with a 32-bit byte offset. -/
def IconDirectoryEntry.decode (s : Stream) (asGroupEntry : Bool) :
    Except String (IconDirectoryEntry × Stream) := do
  let (width, s) ← unpackUInt8 s
  let (height, s) ← unpackUInt8 s
  let (paletteColors, s) ← unpackUInt16LE s
  let (colorPlanes, s) ← unpackUInt16LE s
  let (bitsPerPixel, s) ← unpackUInt16LE s
  let (iconSize, s) ← unpackUInt32LE s
  if asGroupEntry then
    let (resourceId, s) ← unpackUInt16LE s
    .ok (⟨width, height, paletteColors, colorPlanes, bitsPerPixel, iconSize,
      some resourceId, none⟩, s)
  else
    let (bitmapStart, s) ← unpackUInt32LE s
    .ok (⟨width, height, paletteColors, colorPlanes, bitsPerPixel, iconSize,
      none, some bitmapStart⟩, s)

/-- Pack an optional field; packing `None` raises, as `struct.pack` does. -/
def packOptU (byteCount : Nat) : Option Nat → Except String (List Nat)
  | none => .error "required argument is not an integer"
  | some v => packUInt byteCount v

/-- `IconDirectoryEntry.encode`. -/
def IconDirectoryEntry.encode (e : IconDirectoryEntry) (asGroupEntry : Bool) :
    Except String (List Nat) := do
  let b1 ← packIntU 1 e.width
  let b2 ← packIntU 1 e.height
  let b3 ← packU16 e.total_palette_colors
  let b4 ← packU16 e.color_planes
  let b5 ← packU16 e.bits_per_pixel
  let b6 ← packU32 e.icon_size_in_bytes
  if asGroupEntry then
    let b7 ← packOptU 2 e.icon_resource_id
    .ok (b1 ++ b2 ++ b3 ++ b4 ++ b5 ++ b6 ++ b7)
  else
    let b7 ← packOptU 4 e.bitmap_start_offset
    .ok (b1 ++ b2 ++ b3 ++ b4 ++ b5 ++ b6 ++ b7)

/-- `nefile.resources.cursor.CursorDirectoryEntry`. -/
structure CursorDirectoryEntry where
  width : Nat
  raw_height : Nat
  height : Nat
  color_planes : Nat
  bits_per_pixel : Nat
  cursor_size_in_bytes : Nat
  cursor_resource_id : Nat
deriving Repr, DecidableEq

def CursorDirectoryEntry.LENGTH_IN_BYTES : Nat := 0x10

/-- `CursorDirectoryEntry.__init__`: the stored height is halved on read
(the `_raw_height // 2` quirk). -/
def CursorDirectoryEntry.decode (s : Stream) :
    Except String (CursorDirectoryEntry × Stream) := do
  let (width, s) ← unpackUInt16LE s
  let (rawHeight, s) ← unpackUInt16LE s
  let height := rawHeight / 2
  let (colorPlanes, s) ← unpackUInt16LE s
  let (bitsPerPixel, s) ← unpackUInt16LE s
  let (cursorSize, s) ← unpackUInt32LE s
  let (resourceId, s) ← unpackUInt16LE s
  .ok (⟨width, rawHeight, height, colorPlanes, bitsPerPixel, cursorSize,
    resourceId⟩, s)

/-- `CursorDirectoryEntry.encode`: width and height are written as single
bytes; the image start offset takes the place of the resource id and the
hotspot pair replaces the palette/planes words. -/
def CursorDirectoryEntry.encode (e : CursorDirectoryEntry)
    (imageStartOffset xHotspot yHotspot : Nat) : Except String (List Nat) := do
  let b1 ← packU8 e.width
  let b2 ← packU8 e.height
  let b3 ← packU8 0
  let b4 ← packU8 0
  let b5 ← packU16 xHotspot
  let b6 ← packU16 yHotspot
  let b7 ← packU32 e.cursor_size_in_bytes
  let b8 ← packU32 imageStartOffset
  .ok (b1 ++ b2 ++ b3 ++ b4 ++ b5 ++ b6 ++ b7 ++ b8)

/-- `nefile.resources.cursor.CursorDirectory`. -/
structure CursorDirectory where
  signature : Nat
  type : Nat
  cursor_count : Nat
  directory_entries : List CursorDirectoryEntry
deriving Repr, DecidableEq

def CursorDirectory.MINIMUM_LENGTH_IN_BYTES : Nat := 0x06

def cursorDirectoryEntries : Nat → Stream →
    Except String (List CursorDirectoryEntry × Stream)
  | 0, s => .ok ([], s)
  | n + 1, s => do
    let (e, s) ← CursorDirectoryEntry.decode s
    let (rest, s) ← cursorDirectoryEntries n s
    .ok (e :: rest, s)

/-- `CursorDirectory.__init__`. -/
def CursorDirectory.decode (s : Stream) : Except String (CursorDirectory × Stream) := do
  let (signature, s) ← unpackUInt16LE s
  if signature ≠ 0x0000 then .error "Cursor directory signature is not valid."
  else do
    let (ty, s) ← unpackUInt16LE s
    let (cursorCount, s) ← unpackUInt16LE s
    let (entries, s) ← cursorDirectoryEntries cursorCount s
    .ok (⟨signature, ty, cursorCount, entries⟩, s)

/-- `CursorDirectory.encode` (the directory header only; entries are
written by the caller). -/
def CursorDirectory.encode (d : CursorDirectory) : Except String (List Nat) := do
  let b1 ← packU16 d.signature
  let b2 ← packU16 d.type
  let b3 ← packU16 d.cursor_count
  .ok (b1 ++ b2 ++ b3)

/-- `CursorDirectory.length_in_bytes`. -/
def CursorDirectory.length_in_bytes (d : CursorDirectory) : Nat :=
  CursorDirectory.MINIMUM_LENGTH_IN_BYTES +
    d.cursor_count * CursorDirectoryEntry.LENGTH_IN_BYTES

/-- A decoded resource, the union of what the registered parser classes
produce.  Group resources keep their id, directory and the dict of
resolved member resources. -/
inductive Resource where
  | bitmap (b : Bitmap)
  | icon (i : Icon)
  | cursor (c : Cursor)
  | stringTable (t : StringTable)
  | appData (d : ApplicationDefinedData)
  | groupIcon (resource_id : ResId) (icon_directory : IconDirectory)
      (icons : List (Nat × Resource))
  | groupCursor (resource_id : ResId) (cursor_directory : CursorDirectory)
      (cursors : List (Nat × Resource))

/-- Reading the `is_in_group` attribute: only `Cursor.__init__` creates
it; on every other resource class the attribute does not exist (`none`). -/
def Resource.isInGroup : Resource → Option Bool
  | .cursor c => some c.is_in_group
  | _ => none

/-- `referenced_cursor.is_in_group = True`.  On a non-`Cursor` object the
Python assignment would attach a dynamic attribute that nothing in the
library ever reads; the model leaves such resources unchanged. -/
def Resource.setInGroup : Resource → Resource
  | .cursor c => .cursor { c with is_in_group := true }
  | r => r

/-- `self.data` of a resource (`AttributeError` on the group classes,
which store no payload of their own). -/
def Resource.dataBytes : Resource → Except String (List Nat)
  | .bitmap b => .ok b.data
  | .icon i => .ok i.data
  | .cursor c => .ok c.data
  | .appData d => .ok d.data
  | _ => .error "AttributeError: data"

/-- `self.x_hotspot` (only cursors have it). -/
def Resource.xHotspot : Resource → Except String Nat
  | .cursor c => .ok c.x_hotspot
  | _ => .error "AttributeError: x_hotspot"

/-- `self.y_hotspot` (only cursors have it). -/
def Resource.yHotspot : Resource → Except String Nat
  | .cursor c => .ok c.y_hotspot
  | _ => .error "AttributeError: y_hotspot"

/-- The materialized `type -> id -> resource` mapping (`self._resources`),
with Python-dict semantics at both levels. -/
abbrev ResourceDict := List (ResId × Resource)

abbrev Cache := List (TypeKey × ResourceDict)

/-- `ResourceTable.find_resource_by_id`.  During a group decode this runs
over the partially built cache, exactly as the Python property does. -/
def findResourceById (cache : Cache) (resourceId : ResId) (typeId : TypeKey) :
    Except String Resource :=
  match dictGet cache typeId with
  | none => .error ("Could not find resource type " ++ (toString (repr typeId)) ++ ".")
  | some typeDict =>
    match dictGet typeDict resourceId with
    | none => .error "Could not find resource of type with ID."
    | some r => .ok r

/-- Write back a mutated resource: Python mutates the shared object, so
the cache slot that `find_resource_by_id` returned sees the update. -/
def cacheSet (cache : Cache) (typeId : TypeKey) (resourceId : ResId)
    (r : Resource) : Cache :=
  dictUpdate cache typeId (dictUpdate ((dictGet cache typeId).getD []) resourceId r)

/-- The per-entry loop of `GroupIcon.__init__`: decode a group directory
entry, look the referenced icon up in the (partial) cache, and store it in
the group's `icons` dict.  No flag is set on the referenced resource. -/
def groupIconLoop : Nat → Stream → Cache → List (Nat × Resource) →
    Except String (List (Nat × Resource) × Stream)
  | 0, s, _, acc => .ok (acc, s)
  | n + 1, s, cache, acc => do
    let (entry, s) ← IconDirectoryEntry.decode s true
    let iconResourceId := (entry.icon_resource_id).getD 0
    let referencedIcon ← findResourceById cache (ResId.num iconResourceId)
      (TypeKey.rt .RT_ICON)
    groupIconLoop n s cache (dictUpdate acc iconResourceId referencedIcon)

/-- `GroupIcon.__init__`.  The cache is returned untouched: unlike the
cursor group, the icon group mutates nothing on its members. -/
def GroupIcon.parse (s : Stream) (decl : ResourceDeclaration) (cache : Cache) :
    Except String Resource × Cache :=
  match IconDirectory.decode s with
  | .error m => (.error m, cache)
  | .ok (dir, s) =>
    match groupIconLoop dir.icon_count s cache [] with
    | .error m => (.error m, cache)
    | .ok (icons, _) => (.ok (.groupIcon decl.id dir icons), cache)

/-- Pure pre-scan of a group-icon payload (directory plus all entries),
used to phrase hypotheses about well-formed group payloads.  It reads the
same bytes `GroupIcon.__init__` reads, without resolving references. -/
def groupIconEntriesPre : Nat → Stream → Except String (List IconDirectoryEntry × Stream)
  | 0, s => .ok ([], s)
  | n + 1, s => do
    let (entry, s) ← IconDirectoryEntry.decode s true
    let (rest, s) ← groupIconEntriesPre n s
    .ok (entry :: rest, s)

def readGroupIconDirectory (s : Stream) :
    Except String (IconDirectory × List IconDirectoryEntry) := do
  let (dir, s) ← IconDirectory.decode s
  let (entries, _) ← groupIconEntriesPre dir.icon_count s
  .ok (dir, entries)

/-- The per-entry loop of `GroupCursor.__init__`: look up each referenced
cursor, set `is_in_group = True` on the shared object (visible through the
cache), and store it in the group's `cursors` dict.  When the loop raises,
the mutations already performed stay in the cache, as they do in Python. -/
def groupCursorLoop : List CursorDirectoryEntry → Cache → List (Nat × Resource) →
    Except String (List (Nat × Resource)) × Cache
  | [], cache, acc => (.ok acc, cache)
  | entry :: rest, cache, acc =>
    match findResourceById cache (ResId.num entry.cursor_resource_id)
      (TypeKey.rt .RT_CURSOR) with
    | .error m => (.error m, cache)
    | .ok referencedCursor =>
      let referencedCursor := referencedCursor.setInGroup
      let cache := cacheSet cache (TypeKey.rt .RT_CURSOR)
        (ResId.num entry.cursor_resource_id) referencedCursor
      groupCursorLoop rest cache (dictUpdate acc entry.cursor_resource_id referencedCursor)

/-- `GroupCursor.__init__`. -/
def GroupCursor.parse (s : Stream) (decl : ResourceDeclaration) (cache : Cache) :
    Except String Resource × Cache :=
  match CursorDirectory.decode s with
  | .error m => (.error m, cache)
  | .ok (dir, _) =>
    match groupCursorLoop dir.directory_entries cache [] with
    | (.error m, cache) => (.error m, cache)
    | (.ok cursors, cache) => (.ok (.groupCursor decl.id dir cursors), cache)

/-- Dispatch to the parser class registered for a type key
(`self.resource_parsers.get(type_code, ApplicationDefinedData)` with the
built-in registrations and no user-defined ones).  Non-group parsers leave
the cache untouched; group parsers may mutate it. -/
def parseWithRegistered (typeCode : TypeKey) (s : Stream)
    (decl : ResourceDeclaration) (cache : Cache) : Except String Resource × Cache :=
  match typeCode with
  | .rt .RT_ICON => ((Icon.parse s decl).map .icon, cache)
  | .rt .RT_BITMAP => ((Bitmap.parse s decl).map .bitmap, cache)
  | .rt .RT_CURSOR => ((Cursor.parse s decl).map .cursor, cache)
  | .rt .RT_GROUP_ICON => GroupIcon.parse s decl cache
  | .rt .RT_GROUP_CURSOR => GroupCursor.parse s decl cache
  | .rt .RT_STRING => ((StringTable.parse s decl).map .stringTable, cache)
  | _ => ((ApplicationDefinedData.parse s decl).map .appData, cache)

/-- The body of `ResourceTable._parse_resources`, statement by statement:

* the `seek` to the declaration's data offset stands OUTSIDE the
  `try`/`except`, so its failure propagates and aborts the whole pass;
* if the registered parser raises, seek again (line 145, inside the `try`)
  and retry with the raw decoder;
* if that also raises, the Python local `resource` keeps the previous
  iteration's value — or is unbound on the first iteration, in which case
  `resources.update(...)` raises `UnboundLocalError`. -/
def parseResourcesLoop (stream : Stream) (typeCode : TypeKey) :
    List ResourceDeclaration → Cache → ResourceDict → Option Resource →
    Except String (ResourceDict × Cache)
  | [], cache, resources, _ => .ok (resources, cache)
  | decl :: rest, cache, resources, lastResource => do
    let s ← stream.seek decl.data_start_offset
    let (result, cache) := parseWithRegistered typeCode s decl cache
    let resourceVar : Option Resource :=
      match result with
      | .ok r => some r
      | .error _ =>
        match s.seek decl.data_start_offset with
        | .error _ => lastResource
        | .ok s2 =>
          match ApplicationDefinedData.parse s2 decl with
          | .ok d => some (.appData d)
          | .error _ => lastResource
    match resourceVar with
    | none => .error "UnboundLocalError: local variable resource referenced before assignment"
    | some r =>
      parseResourcesLoop stream typeCode rest cache (dictUpdate resources decl.id r) (some r)

/-- `ResourceTable._parse_resources` for one type table. -/
def parseResourcesOfType (stream : Stream) (tt : ResourceTypeTable) (cache : Cache) :
    Except String (ResourceDict × Cache) :=
  parseResourcesLoop stream tt.type_code tt.resource_declarations cache [] none

/-- Phase 1 of the `resources` property: built-in types in `ResourceType`
definition (numeric) order, skipping the ones absent from the table.  The
returned list records which dictionary keys were parsed (`was_parsed`). -/
def materializePhase1 (stream : Stream) (tables : List (TypeKey × ResourceTypeTable)) :
    List ResourceType → Cache → List TypeKey →
    Except String (Cache × List TypeKey)
  | [], cache, parsed => .ok (cache, parsed)
  | t :: rest, cache, parsed =>
    match dictGet tables (TypeKey.rt t) with
    | none => materializePhase1 stream tables rest cache parsed
    | some tt => do
      let (resources, cache) ← parseResourcesOfType stream tt cache
      materializePhase1 stream tables rest (dictUpdate cache tt.type_code resources)
        (parsed ++ [TypeKey.rt t])

/-- Phase 2: every type table not yet parsed, in file declaration order. -/
def materializePhase2 (stream : Stream) :
    List (TypeKey × ResourceTypeTable) → Cache → List TypeKey →
    Except String Cache
  | [], cache, _ => .ok cache
  | (key, tt) :: rest, cache, parsed =>
    if key ∈ parsed then materializePhase2 stream rest cache parsed
    else do
      let (resources, cache) ← parseResourcesOfType stream tt cache
      materializePhase2 stream rest (dictUpdate cache tt.type_code resources)
        (parsed ++ [key])

/-- The `ResourceTable.resources` property on first access: parse built-in
types in canonical numeric order, then the remaining types in file order,
and return the full `type -> id -> resource` mapping. -/
def ResourceTable.materialize (stream : Stream)
    (tables : List (TypeKey × ResourceTypeTable)) : Except String Cache := do
  let (cache, parsed) ← materializePhase1 stream tables ResourceType.all [] []
  materializePhase2 stream tables cache parsed

/-- `str.lower()`. -/
def pyLower (s : String) : String := String.map Char.toLower s

/-- Python's `s[:-4]` slice. -/
def pyDropLast4 (s : String) : String := s.dropRight 4

/-- `Icon.ico_directory`: a fresh directory with `icon_count = 1`. -/
def Icon.ico_directory (_i : Icon) : IconDirectory :=
  { IconDirectory.init with icon_count := 1 }

/-- `Icon.ico_directory_entry`: synthesized from the decoded bitmap
header; the height is halved and the single entry starts right after the
directory structures. -/
def Icon.ico_directory_entry (i : Icon) : IconDirectoryEntry :=
  { width := i.bitmap_header.width
    height := i.bitmap_header.height.fdiv 2
    total_palette_colors := i.bitmap_header.total_palette_colors
    color_planes := i.bitmap_header.color_planes
    bits_per_pixel := i.bitmap_header.bits_per_pixel
    icon_size_in_bytes := i.data.length
    icon_resource_id := none
    bitmap_start_offset :=
      some (IconDirectory.LENGTH_IN_BYTES + IconDirectoryEntry.LENGTH_IN_BYTES) }

/-- `Icon.write_ico_file`: directory, one entry, then the raw payload. -/
def Icon.write_ico_file (i : Icon) : Except String (List Nat) := do
  let dirBytes ← (i.ico_directory).encode
  let entryBytes ← (i.ico_directory_entry).encode false
  .ok (dirBytes ++ entryBytes ++ i.data)

/-- `Icon.export`: writes a complete single-icon ICO file at
`filepath + ".ico"`, unconditionally — the class has no group flag and no
export guard. -/
def Icon.export (i : Icon) (filepath : String) :
    Except String (List (String × List Nat)) := do
  let bytes ← i.write_ico_file
  .ok [(filepath ++ ".ico", bytes)]

/-- `Cursor.export`: a cursor in a group is skipped (it is exported with
its group); a cursor outside any group raises `ValueError` before any file
is opened, so nothing is written. -/
def Cursor.export (c : Cursor) (_filepath : String) :
    Except String (List (String × List Nat)) :=
  if c.is_in_group then .ok []
  else
    .error ("Cannot export cursor " ++ c.resource_id.pyStr ++
      " since it is not part of a group.")

/-- `icon.write_ico_file(...)` through a dynamic attribute lookup: only
`Icon` objects have the method. -/
def Resource.writeIcoFile : Resource → Except String (List Nat)
  | .icon i => i.write_ico_file
  | _ => .error "AttributeError: write_ico_file"

/-- `GroupIcon.export`: one `open(filepath + ".ico", 'wb')` per member —
the same path every time, each open truncating the file — and each member
written as its own complete single-icon ICO file. -/
def GroupIcon.export (icons : List (Nat × Resource)) (filepath : String) :
    Except String (List (String × List Nat)) :=
  icons.foldlM (fun acc kr => do
    let bytes ← kr.2.writeIcoFile
    pure (acc ++ [(filepath ++ ".ico", bytes)])) []

/-- The pointer-computation loop of `GroupCursor.export`: each member's
image start offset is the directory length plus the lengths of the
payloads already placed. -/
def pointerLoop : List (Nat × Resource) → Nat → Except String (List Nat)
  | [], _ => .ok []
  | kr :: rest, currentOffset => do
    let d ← kr.2.dataBytes
    let ps ← pointerLoop rest (currentOffset + d.length)
    .ok (currentOffset :: ps)

/-- Python's three-way `zip`, stopping at the shortest input. -/
def zip3 {α β γ : Type} : List α → List β → List γ → List (α × β × γ)
  | a :: as, b :: bs, c :: cs => (a, b, c) :: zip3 as bs cs
  | _, _, _ => []

/-- The directory-entry writing loop of `GroupCursor.export`. -/
def encodeEntriesLoop : List (CursorDirectoryEntry × Nat × Resource) →
    Except String (List Nat)
  | [] => .ok []
  | (entry, imageStartPointer, c) :: rest => do
    let x ← c.xHotspot
    let y ← c.yHotspot
    let bytes ← entry.encode imageStartPointer x y
    let restBytes ← encodeEntriesLoop rest
    .ok (bytes ++ restBytes)

/-- The payload-writing loop of `GroupCursor.export`. -/
def payloadLoop : List (Nat × Resource) → Except String (List Nat)
  | [] => .ok []
  | kr :: rest => do
    let d ← kr.2.dataBytes
    let restBytes ← payloadLoop rest
    .ok (d ++ restBytes)

/-- The export path including the (buggy but faithful) `[:-4]` extension
check of the source. -/
def groupCursorExportPath (filepath : String) : String :=
  if pyLower (pyDropLast4 filepath) = ".cur" then filepath else filepath ++ ".cur"

/-- `GroupCursor.export`: compute the cumulative image offsets, then write
one CUR file: directory header, one entry per zip-aligned member (with the
hotspot pair and the image offset in place of the resource id), then the
concatenated payloads in dict order. -/
def GroupCursor.export (dir : CursorDirectory) (cursors : List (Nat × Resource))
    (filepath : String) : Except String (List (String × List Nat)) := do
  let exportFilepath := groupCursorExportPath filepath
  let pointers ← pointerLoop cursors dir.length_in_bytes
  let dirBytes ← dir.encode
  let entryBytes ← encodeEntriesLoop (zip3 dir.directory_entries pointers
    (cursors.map (·.2)))
  let payloadBytes ← payloadLoop cursors
  .ok [(exportFilepath, dirBytes ++ entryBytes ++ payloadBytes)]

/-! ### Helper lemmas about the byte-level primitives -/

theorem dictGet_update_self {α β : Type} [DecidableEq α] (d : List (α × β))
    (k : α) (v : β) : dictGet (dictUpdate d k v) k = some v := by
  induction d with
  | nil => simp [dictUpdate, dictGet]
  | cons p rest ih =>
    by_cases h : p.1 = k
    · simp [dictUpdate, dictGet, h]
    · simp [dictUpdate, dictGet, h, ih]

theorem dictGet_update_ne {α β : Type} [DecidableEq α] (d : List (α × β))
    (k k' : α) (v : β) (h : k' ≠ k) :
    dictGet (dictUpdate d k v) k' = dictGet d k' := by
  have hkk : k ≠ k' := fun hh => h hh.symm
  induction d with
  | nil => simp [dictUpdate, dictGet, hkk]
  | cons p rest ih =>
    by_cases hp : p.1 = k
    · have hp' : p.1 ≠ k' := by rw [hp]; exact hkk
      simp [dictUpdate, dictGet, hp, hp', hkk]
    · simp only [dictUpdate, if_neg hp]
      by_cases hp' : p.1 = k'
      · simp [dictGet, hp']
      · simp [dictGet, hp', ih]

theorem takeDrop_succ {α : Type} (l : List α) (d : α) (p n : Nat)
    (h : p < l.length) :
    (l.drop p).take (n + 1) = l.getD p d :: (l.drop (p + 1)).take n := by
  rw [List.drop_eq_getElem_cons h, List.take_succ_cons, List.getD_eq_getElem l d h]

theorem readBytes_chunk_length (s : Stream) (n : Nat) :
    ((s.readBytes n).1).length = min n (s.data.length - s.pos) := by
  simp [Stream.readBytes]

theorem unpackN_ok (s : Stream) (n : Nat) (hn : 0 < n) (r : Nat × Stream)
    (h : s.unpackN n = .ok r) :
    r.1 = bytesToNatLE ((s.data.drop s.pos).take n) ∧
      r.2 = ⟨s.data, s.pos + n⟩ ∧ s.pos + n ≤ s.data.length := by
  simp only [Stream.unpackN, Stream.readBytes] at h
  by_cases hl : ((s.data.drop s.pos).take n).length = n
  · have hmin : ((s.data.drop s.pos).take n).length =
        min n (s.data.length - s.pos) := by simp
    rw [hl] at hmin
    have hle : s.pos + n ≤ s.data.length := by omega
    rw [if_pos hl] at h
    cases h
    exact ⟨rfl, by rw [hl], hle⟩
  · rw [if_neg hl] at h
    exact absurd h (by simp)

theorem unpack8_ok (s : Stream) (v : Nat) (s' : Stream)
    (h : unpackUInt8 s = .ok (v, s')) :
    v = s.data.getD s.pos 0 ∧ s' = ⟨s.data, s.pos + 1⟩ ∧
      s.pos + 1 ≤ s.data.length := by
  obtain ⟨hv, hs, hle⟩ := unpackN_ok s 1 (by omega) (v, s') h
  refine ⟨?_, hs, hle⟩
  rw [show v = bytesToNatLE ((s.data.drop s.pos).take 1) from hv,
    takeDrop_succ s.data 0 s.pos 0 (by omega)]
  simp [bytesToNatLE]

theorem unpack16_ok (s : Stream) (v : Nat) (s' : Stream)
    (h : unpackUInt16LE s = .ok (v, s')) :
    v = readU16At s.data s.pos ∧ s' = ⟨s.data, s.pos + 2⟩ ∧
      s.pos + 2 ≤ s.data.length := by
  obtain ⟨hv, hs, hle⟩ := unpackN_ok s 2 (by omega) (v, s') h
  refine ⟨?_, hs, hle⟩
  rw [show v = bytesToNatLE ((s.data.drop s.pos).take 2) from hv,
    takeDrop_succ s.data 0 s.pos 1 (by omega),
    takeDrop_succ s.data 0 (s.pos + 1) 0 (by omega)]
  simp [bytesToNatLE, readU16At]

theorem unpack32_ok (s : Stream) (v : Nat) (s' : Stream)
    (h : unpackUInt32LE s = .ok (v, s')) :
    v = readU32At s.data s.pos ∧ s' = ⟨s.data, s.pos + 4⟩ ∧
      s.pos + 4 ≤ s.data.length := by
  obtain ⟨hv, hs, hle⟩ := unpackN_ok s 4 (by omega) (v, s') h
  refine ⟨?_, hs, hle⟩
  rw [show v = bytesToNatLE ((s.data.drop s.pos).take 4) from hv,
    takeDrop_succ s.data 0 s.pos 3 (by omega),
    takeDrop_succ s.data 0 (s.pos + 1) 2 (by omega),
    takeDrop_succ s.data 0 (s.pos + 2) 1 (by omega),
    takeDrop_succ s.data 0 (s.pos + 3) 0 (by omega)]
  simp [bytesToNatLE, readU32At]

theorem unpackI32_ok (s : Stream) (v : Int) (s' : Stream)
    (h : unpackInt32LE s = .ok (v, s')) :
    v = readI32At s.data s.pos ∧ s' = ⟨s.data, s.pos + 4⟩ ∧
      s.pos + 4 ≤ s.data.length := by
  unfold unpackInt32LE at h
  cases hu : s.unpackN 4 with
  | error e => rw [hu] at h; exact absurd h (by simp [Except.map])
  | ok w =>
    rw [hu] at h
    simp only [Except.map] at h
    obtain ⟨hv, hs, hle⟩ := unpack32_ok s w.1 w.2 (by rw [unpackUInt32LE, hu])
    cases h
    exact ⟨by rw [readI32At, ← hv], hs, hle⟩

theorem natToBytesLE_length (k v : Nat) : (natToBytesLE k v).length = k := by
  induction k generalizing v with
  | zero => simp [natToBytesLE]
  | succ k ih => simp [natToBytesLE, ih]

theorem bytesToNatLE_natToBytesLE (k v : Nat) (h : v < 256 ^ k) :
    bytesToNatLE (natToBytesLE k v) = v := by
  induction k generalizing v with
  | zero =>
    have hv : v = 0 := by simpa using h
    simp [natToBytesLE, bytesToNatLE, hv]
  | succ k ih =>
    have hdiv : v / 256 < 256 ^ k := by
      rw [Nat.div_lt_iff_lt_mul (by norm_num)]
      calc v < 256 ^ (k + 1) := h
        _ = 256 ^ k * 256 := by ring
    simp [natToBytesLE, bytesToNatLE, ih (v / 256) hdiv]
    omega

theorem readU16At_append_right (l l2 : List Nat) (k : Nat) :
    readU16At (l ++ l2) (l.length + k) = readU16At l2 k := by
  unfold readU16At
  have h1 : l.length + k + 1 = l.length + (k + 1) := by omega
  rw [h1, List.getD_append_right l l2 0 (l.length + k) (by omega),
    List.getD_append_right l l2 0 (l.length + (k + 1)) (by omega),
    Nat.add_sub_cancel_left, Nat.add_sub_cancel_left]

theorem readU32At_append_right (l l2 : List Nat) (k : Nat) :
    readU32At (l ++ l2) (l.length + k) = readU32At l2 k := by
  unfold readU32At
  have h1 : l.length + k + 1 = l.length + (k + 1) := by omega
  have h2 : l.length + k + 2 = l.length + (k + 2) := by omega
  have h3 : l.length + k + 3 = l.length + (k + 3) := by omega
  rw [h1, h2, h3, List.getD_append_right l l2 0 (l.length + k) (by omega),
    List.getD_append_right l l2 0 (l.length + (k + 1)) (by omega),
    List.getD_append_right l l2 0 (l.length + (k + 2)) (by omega),
    List.getD_append_right l l2 0 (l.length + (k + 3)) (by omega),
    Nat.add_sub_cancel_left, Nat.add_sub_cancel_left,
    Nat.add_sub_cancel_left, Nat.add_sub_cancel_left]

theorem readU32At_append_left (l l2 : List Nat) (p : Nat) (h : p + 4 ≤ l.length) :
    readU32At (l ++ l2) p = readU32At l p := by
  unfold readU32At
  rw [List.getD_append l l2 0 p (by omega),
    List.getD_append l l2 0 (p + 1) (by omega),
    List.getD_append l l2 0 (p + 2) (by omega),
    List.getD_append l l2 0 (p + 3) (by omega)]

theorem readU16At_append_left (l l2 : List Nat) (p : Nat) (h : p + 2 ≤ l.length) :
    readU16At (l ++ l2) p = readU16At l p := by
  unfold readU16At
  rw [List.getD_append l l2 0 p (by omega),
    List.getD_append l l2 0 (p + 1) (by omega)]

theorem bind_ok {ε α β : Type} (e : Except ε α) (f : α → Except ε β) (r : β)
    (h : Bind.bind e f = .ok r) : ∃ a, e = .ok a ∧ f a = .ok r := by
  cases e with
  | error err =>
    simp only [Bind.bind, Except.bind] at h
    exact absurd h (by simp)
  | ok a =>
    refine ⟨a, rfl, ?_⟩
    simpa only [Bind.bind, Except.bind] using h

theorem chunk1_eq (l : List Nat) (p : Nat) (h : p + 1 ≤ l.length) :
    bytesToNatLE ((l.drop p).take 1) = l.getD p 0 := by
  rw [takeDrop_succ l 0 p 0 (by omega)]
  simp [bytesToNatLE]

theorem chunk2_eq (l : List Nat) (p : Nat) (h : p + 2 ≤ l.length) :
    bytesToNatLE ((l.drop p).take 2) = readU16At l p := by
  rw [takeDrop_succ l 0 p 1 (by omega), takeDrop_succ l 0 (p + 1) 0 (by omega)]
  simp [bytesToNatLE, readU16At]

theorem chunk4_eq (l : List Nat) (p : Nat) (h : p + 4 ≤ l.length) :
    bytesToNatLE ((l.drop p).take 4) = readU32At l p := by
  rw [takeDrop_succ l 0 p 3 (by omega), takeDrop_succ l 0 (p + 1) 2 (by omega),
    takeDrop_succ l 0 (p + 2) 1 (by omega), takeDrop_succ l 0 (p + 3) 0 (by omega)]
  simp [bytesToNatLE, readU32At]

theorem unpackN_succeeds (s : Stream) (n : Nat) (h : s.pos + n ≤ s.data.length) :
    s.unpackN n = .ok (bytesToNatLE ((s.data.drop s.pos).take n),
      ⟨s.data, s.pos + n⟩) := by
  have hl : ((s.data.drop s.pos).take n).length = n := by
    simp; omega
  simp only [Stream.unpackN, Stream.readBytes]
  rw [if_pos hl, hl]

theorem unpack8_succeeds (s : Stream) (h : s.pos + 1 ≤ s.data.length) :
    unpackUInt8 s = .ok (s.data.getD s.pos 0, ⟨s.data, s.pos + 1⟩) := by
  rw [unpackUInt8, unpackN_succeeds s 1 h, chunk1_eq s.data s.pos h]

theorem unpack16_succeeds (s : Stream) (h : s.pos + 2 ≤ s.data.length) :
    unpackUInt16LE s = .ok (readU16At s.data s.pos, ⟨s.data, s.pos + 2⟩) := by
  rw [unpackUInt16LE, unpackN_succeeds s 2 h, chunk2_eq s.data s.pos h]

theorem unpack32_succeeds (s : Stream) (h : s.pos + 4 ≤ s.data.length) :
    unpackUInt32LE s = .ok (readU32At s.data s.pos, ⟨s.data, s.pos + 4⟩) := by
  rw [unpackUInt32LE, unpackN_succeeds s 4 h, chunk4_eq s.data s.pos h]

theorem unpackI16_succeeds (s : Stream) (h : s.pos + 2 ≤ s.data.length) :
    unpackInt16LE s = .ok (toSigned 16 (readU16At s.data s.pos),
      ⟨s.data, s.pos + 2⟩) := by
  rw [unpackInt16LE, unpackN_succeeds s 2 h, chunk2_eq s.data s.pos h]
  rfl

theorem unpackI32_succeeds (s : Stream) (h : s.pos + 4 ≤ s.data.length) :
    unpackInt32LE s = .ok (readI32At s.data s.pos, ⟨s.data, s.pos + 4⟩) := by
  rw [unpackInt32LE, unpackN_succeeds s 4 h, chunk4_eq s.data s.pos h]
  rfl

theorem seek_succeeds (s : Stream) (p : Nat) (h : p ≤ s.data.length) :
    s.seek p = .ok ⟨s.data, p⟩ := by
  simp [Stream.seek, h]

theorem readU32At_bytesLE (v : Nat) (h : v < 256 ^ 4) :
    readU32At (natToBytesLE 4 v) 0 = v := by
  have h4 : v < 4294967296 := by norm_num at h; exact h
  have hlist : natToBytesLE 4 v =
      [v % 256, v / 256 % 256, v / 256 / 256 % 256, v / 256 / 256 / 256 % 256] := rfl
  rw [hlist]
  simp only [readU32At, List.getD_cons_zero, List.getD_cons_succ]
  omega

/-! ### Claim theorems -/

/-- C7: for every resource declaration the effective data offset is the
raw stored 16-bit offset left-shifted by the alignment shift, and likewise
for the effective length; and the table parse uses only the low 8 bits of
the raw 16-bit alignment-shift word, so any bits above the low 8 are
masked off (the third conjunct makes the mask idempotence explicit: a raw
word and its 8-bit masked value yield the same shift count, hence the same
offsets and lengths). -/
theorem c7_alignment_shift_scaling :
    (∀ (s : Stream) (shift start : Nat) (r : ResourceDeclaration × Stream),
      ResourceDeclaration.parse s shift start = .ok r →
        r.1.data_start_offset = readU16At s.data s.pos <<< shift ∧
        r.1.resource_length_in_bytes = readU16At s.data (s.pos + 2) <<< shift) ∧
    (∀ (s : Stream) (r : ParsedResourceTable × Stream),
      ResourceTable.parse s = .ok r →
        r.1.alignment_shift_count = readU16At s.data s.pos &&& 0xff ∧
        r.1.alignment_shift_count = (readU16At s.data s.pos &&& 0xff) &&& 0xff) := by
  constructor
  · intro s shift start r h
    unfold ResourceDeclaration.parse at h
    obtain ⟨⟨v1, s1⟩, h1, h⟩ := bind_ok _ _ _ h
    obtain ⟨hv1, hs1, hle1⟩ := unpack16_ok _ _ _ h1
    simp only at h
    obtain ⟨⟨v2, s2⟩, h2, h⟩ := bind_ok _ _ _ h
    obtain ⟨hv2, hs2, _⟩ := unpack16_ok _ _ _ h2
    simp only at h
    obtain ⟨⟨v3, s3⟩, h3, h⟩ := bind_ok _ _ _ h
    simp only at h
    obtain ⟨⟨v4, s4⟩, h4, h⟩ := bind_ok _ _ _ h
    simp only at h
    split at h
    · simp only [pure_bind] at h
      cases h
      subst hv1
      subst hv2
      subst hs1
      exact ⟨rfl, rfl⟩
    · obtain ⟨rs, hrs, h⟩ := bind_ok _ _ _ h
      simp only [pure_bind] at h
      cases h
      subst hv1
      subst hv2
      subst hs1
      exact ⟨rfl, rfl⟩
  · intro s r h
    unfold ResourceTable.parse at h
    obtain ⟨⟨v1, s1⟩, h1, h⟩ := bind_ok _ _ _ h
    obtain ⟨hv1, hs1, hle1⟩ := unpack16_ok _ _ _ h1
    simp only at h
    obtain ⟨⟨tables, s2⟩, h2, h⟩ := bind_ok _ _ _ h
    simp only at h
    cases h
    subst hv1
    refine ⟨rfl, ?_⟩
    show readU16At s.data s.pos &&& 0xff =
      (readU16At s.data s.pos &&& 0xff) &&& 0xff
    rw [Nat.and_assoc]
    congr 1

def c7DeclStream : Stream := ⟨[3, 1, 2, 0, 0, 0, 1, 128, 0, 0, 0, 0], 0⟩

def c7DeclResult : ResourceDeclaration × Stream :=
  (⟨0x0103 <<< 5, 2 <<< 5, 0, .num 1⟩, ⟨c7DeclStream.data, 12⟩)

def c7TableStream : Stream := ⟨[5, 1, 0, 0], 0⟩

def c7TableResult : ParsedResourceTable × Stream :=
  (⟨0, 5, []⟩, ⟨c7TableStream.data, 4⟩)

/-- Witness for C7 at a declaration whose raw offset is 0x0103 under shift
5 and a table whose raw shift word 0x0105 carries a junk high byte. -/
theorem c7_witness :
    ResourceDeclaration.parse c7DeclStream 5 0 = .ok c7DeclResult ∧
    (c7DeclResult.1.data_start_offset =
        readU16At c7DeclStream.data c7DeclStream.pos <<< 5 ∧
      c7DeclResult.1.resource_length_in_bytes =
        readU16At c7DeclStream.data (c7DeclStream.pos + 2) <<< 5) ∧
    ResourceTable.parse c7TableStream = .ok c7TableResult ∧
    (c7TableResult.1.alignment_shift_count =
        readU16At c7TableStream.data c7TableStream.pos &&& 0xff ∧
      c7TableResult.1.alignment_shift_count =
        (readU16At c7TableStream.data c7TableStream.pos &&& 0xff) &&& 0xff) :=
  ⟨rfl,
   c7_alignment_shift_scaling.1 c7DeclStream 5 0 c7DeclResult rfl,
   rfl,
   c7_alignment_shift_scaling.2 c7TableStream c7TableResult rfl⟩

theorem takeWhile_append_stop {α : Type} (p : α → Bool) (a : List α) (c : α)
    (d : List α) (ha : ∀ x ∈ a, p x = true) (hc : p c = false) :
    (a ++ c :: d).takeWhile p = a := by
  induction a with
  | nil => simp [List.takeWhile, hc]
  | cons x rest ih =>
    have hx : p x = true := ha x (by simp)
    have hrest : ∀ y ∈ rest, p y = true := fun y hy => ha y (by simp [hy])
    simp [List.takeWhile, hx, ih hrest]

/-- C9: resolving an indirect name or type string truncates at an embedded
zero terminator: for a declared length `L`, when the byte run contains a
zero after `a.length < L` non-zero ASCII bytes, exactly the bytes before
the terminator are decoded (so a declared length-8 run with a terminator
as its 4th byte yields a 3-character string), and the stream cursor is
restored. -/
theorem c9_embedded_terminator (pre a b : List Nat) (L pos : Nat)
    (hshort : a.length < L) (_hlong : L ≤ a.length + 1 + b.length)
    (hnz : ∀ x ∈ a, x ≠ 0) (hascii : ∀ x ∈ a, x < 128)
    (hpos : pos ≤ (pre ++ L :: (a ++ 0 :: b)).length) :
    ResourceString.read ⟨pre ++ L :: (a ++ 0 :: b), pos⟩ pre.length =
      .ok (String.mk (a.map Char.ofNat), ⟨pre ++ L :: (a ++ 0 :: b), pos⟩) ∧
    (String.mk (a.map Char.ofNat)).length = a.length := by
  constructor
  · have hdata : pre ++ L :: (a ++ 0 :: b) = (pre ++ [L]) ++ (a ++ 0 :: b) := by
      simp
    have hlen : pre.length ≤ (pre ++ L :: (a ++ 0 :: b)).length := by
      simp
    unfold ResourceString.read
    rw [seek_succeeds _ _ hlen]
    simp only [Bind.bind, Except.bind]
    rw [unpack8_succeeds ⟨pre ++ L :: (a ++ 0 :: b), pre.length⟩ (by simp)]
    simp only [Except.bind]
    have hgetL : (pre ++ L :: (a ++ 0 :: b)).getD pre.length 0 = L := by
      rw [List.getD_append_right _ _ _ _ (le_refl _)]
      simp
    rw [hgetL]
    have hLpos : 0 < L := by omega
    rw [if_pos hLpos]
    simp only [Stream.readBytes]
    have hdrop : (pre ++ L :: (a ++ 0 :: b)).drop (pre.length + 1) =
        a ++ 0 :: b := by
      rw [hdata, show pre.length + 1 = (pre ++ [L]).length by simp,
        List.drop_left]
    rw [hdrop]
    have htake : (a ++ 0 :: b).take L = a ++ 0 :: b.take (L - a.length - 1) := by
      rw [List.take_append_eq_append_take,
        List.take_of_length_le (by omega)]
      congr 1
      have hLa : L - a.length = (L - a.length - 1) + 1 := by omega
      rw [hLa, List.take_succ_cons]
      simp
    rw [htake]
    have htrunc : truncateAtZero (a ++ 0 :: b.take (L - a.length - 1)) = a := by
      unfold truncateAtZero
      exact takeWhile_append_stop _ a 0 _
        (fun x hx => by simpa using hnz x hx) (by simp)
    rw [htrunc]
    have hdec : decodeAscii a = .ok (String.mk (a.map Char.ofNat)) := by
      unfold decodeAscii
      rw [if_pos]
      simp only [List.all_eq_true, decide_eq_true_eq]
      exact hascii
    rw [hdec]
    simp only [Except.bind]
    rw [seek_succeeds _ _ (by simpa using hpos)]
  · simp [String.length]

def c9Stream : Stream := ⟨[8, 72, 73, 74, 0, 75, 76, 77, 78], 0⟩

/-- Witness for C9: the spec example itself — declared length 8 with a
terminator as the 4th byte decodes to the 3-character string "HIJ". -/
theorem c9_witness :
    ResourceString.read c9Stream 0 = .ok ("HIJ", c9Stream) ∧
    ("HIJ" : String).length = 3 :=
  c9_embedded_terminator [] [72, 73, 74] [75, 76, 77, 78] 8 0
    (by decide) (by decide) (by decide) (by decide) (by decide)

/-- The modern header record whose fields sit at their standard offsets in
a byte list (used to state what the decoders produce). -/
def infoHeaderAt (l : List Nat) (p : Nat) : BitmapInfoHeader :=
  ⟨0x28, readI32At l (p + 4), readI32At l (p + 8), readU16At l (p + 12),
    readU16At l (p + 14), readU32At l (p + 16), readU32At l (p + 20),
    readI32At l (p + 24), readI32At l (p + 28), readU32At l (p + 32),
    readU32At l (p + 36)⟩

/-- The legacy header record at its standard offsets. -/
def coreHeaderAt (l : List Nat) (p : Nat) : BitmapCoreHeader :=
  ⟨0x0c, toSigned 16 (readU16At l (p + 4)), toSigned 16 (readU16At l (p + 6)),
    readU16At l (p + 8), readU16At l (p + 10)⟩

theorem bitmapInfoHeader_parses (s : Stream)
    (h40 : readU32At s.data s.pos = 0x28) (hlen : s.pos + 40 ≤ s.data.length) :
    BitmapInfoHeader.parse s =
      .ok (infoHeaderAt s.data s.pos, ⟨s.data, s.pos + 40⟩) := by
  unfold BitmapInfoHeader.parse
  rw [unpack32_succeeds s (by omega)]
  simp only [Bind.bind, Except.bind]
  rw [h40]
  rw [if_neg (by simp)]
  rw [unpackI32_succeeds ⟨s.data, s.pos + 4⟩ (by simp only []; omega)]
  simp only [Bind.bind, Except.bind]
  rw [show s.pos + 4 + 4 = s.pos + 8 by omega]
  rw [unpackI32_succeeds ⟨s.data, s.pos + 8⟩ (by simp only []; omega)]
  simp only [Bind.bind, Except.bind]
  rw [show s.pos + 8 + 4 = s.pos + 12 by omega]
  rw [unpack16_succeeds ⟨s.data, s.pos + 12⟩ (by simp only []; omega)]
  simp only [Bind.bind, Except.bind]
  rw [show s.pos + 12 + 2 = s.pos + 14 by omega]
  rw [unpack16_succeeds ⟨s.data, s.pos + 14⟩ (by simp only []; omega)]
  simp only [Bind.bind, Except.bind]
  rw [show s.pos + 14 + 2 = s.pos + 16 by omega]
  rw [unpack32_succeeds ⟨s.data, s.pos + 16⟩ (by simp only []; omega)]
  simp only [Bind.bind, Except.bind]
  rw [show s.pos + 16 + 4 = s.pos + 20 by omega]
  rw [unpack32_succeeds ⟨s.data, s.pos + 20⟩ (by simp only []; omega)]
  simp only [Bind.bind, Except.bind]
  rw [show s.pos + 20 + 4 = s.pos + 24 by omega]
  rw [unpackI32_succeeds ⟨s.data, s.pos + 24⟩ (by simp only []; omega)]
  simp only [Bind.bind, Except.bind]
  rw [show s.pos + 24 + 4 = s.pos + 28 by omega]
  rw [unpackI32_succeeds ⟨s.data, s.pos + 28⟩ (by simp only []; omega)]
  simp only [Bind.bind, Except.bind]
  rw [show s.pos + 28 + 4 = s.pos + 32 by omega]
  rw [unpack32_succeeds ⟨s.data, s.pos + 32⟩ (by simp only []; omega)]
  simp only [Bind.bind, Except.bind]
  rw [show s.pos + 32 + 4 = s.pos + 36 by omega]
  rw [unpack32_succeeds ⟨s.data, s.pos + 36⟩ (by simp only []; omega)]
  simp only [Bind.bind, Except.bind]
  rw [show s.pos + 36 + 4 = s.pos + 40 by omega]
  rfl

theorem bitmapInfoHeader_fails (s : Stream)
    (hne : readU32At s.data s.pos ≠ 0x28) (hlen : s.pos + 4 ≤ s.data.length) :
    BitmapInfoHeader.parse s =
      .error "BitmapInfoHeader does not have expected length." := by
  unfold BitmapInfoHeader.parse
  rw [unpack32_succeeds s hlen]
  simp only [Bind.bind, Except.bind]
  rw [if_pos hne]

theorem bitmapCoreHeader_parses (s : Stream)
    (h12 : readU32At s.data s.pos = 0x0c) (hlen : s.pos + 12 ≤ s.data.length) :
    BitmapCoreHeader.parse s =
      .ok (coreHeaderAt s.data s.pos, ⟨s.data, s.pos + 12⟩) := by
  unfold BitmapCoreHeader.parse
  rw [unpack32_succeeds s (by omega)]
  simp only [Bind.bind, Except.bind]
  rw [h12]
  rw [if_neg (by simp)]
  rw [unpackI16_succeeds ⟨s.data, s.pos + 4⟩ (by simp only []; omega)]
  simp only [Bind.bind, Except.bind]
  rw [show s.pos + 4 + 2 = s.pos + 6 by omega]
  rw [unpackI16_succeeds ⟨s.data, s.pos + 6⟩ (by simp only []; omega)]
  simp only [Bind.bind, Except.bind]
  rw [show s.pos + 6 + 2 = s.pos + 8 by omega]
  rw [unpack16_succeeds ⟨s.data, s.pos + 8⟩ (by simp only []; omega)]
  simp only [Bind.bind, Except.bind]
  rw [show s.pos + 8 + 2 = s.pos + 10 by omega]
  rw [unpack16_succeeds ⟨s.data, s.pos + 10⟩ (by simp only []; omega)]
  simp only [Bind.bind, Except.bind]
  rw [show s.pos + 10 + 2 = s.pos + 12 by omega]
  rfl

theorem bitmapCoreHeader_fails (s : Stream)
    (hne : readU32At s.data s.pos ≠ 0x0c) (hlen : s.pos + 4 ≤ s.data.length) :
    BitmapCoreHeader.parse s =
      .error "BitmapCoreHeader does not have expected length." := by
  unfold BitmapCoreHeader.parse
  rw [unpack32_succeeds s hlen]
  simp only [Bind.bind, Except.bind]
  rw [if_pos hne]

theorem bitmap_parse_modern (s : Stream) (decl : ResourceDeclaration)
    (h40 : readU32At s.data s.pos = 0x28) (hlen : s.pos + 40 ≤ s.data.length) :
    Bitmap.parse s decl = .ok ⟨decl.id, .info (infoHeaderAt s.data s.pos), false,
      (s.data.drop s.pos).take decl.resource_length_in_bytes⟩ := by
  unfold Bitmap.parse
  rw [bitmapInfoHeader_parses s h40 hlen]
  simp only [Bind.bind, Except.bind, pure, Except.pure]
  rw [seek_succeeds ⟨s.data, s.pos + 40⟩ s.pos (by simp only []; omega)]
  simp only [Except.bind, Stream.readBytes]

theorem bitmap_parse_legacy (s : Stream) (decl : ResourceDeclaration)
    (h12 : readU32At s.data s.pos = 0x0c) (hlen : s.pos + 12 ≤ s.data.length) :
    Bitmap.parse s decl = .ok ⟨decl.id, .core (coreHeaderAt s.data s.pos), true,
      (s.data.drop s.pos).take decl.resource_length_in_bytes⟩ := by
  unfold Bitmap.parse
  rw [bitmapInfoHeader_fails s (by omega) (by omega)]
  simp only [Bind.bind, Except.bind]
  rw [seek_succeeds s s.pos (by omega)]
  simp only [Except.bind]
  rw [bitmapCoreHeader_parses ⟨s.data, s.pos⟩ h12 hlen]
  simp only [Bind.bind, Except.bind, pure, Except.pure]
  rw [seek_succeeds ⟨s.data, s.pos + 12⟩ s.pos (by simp only []; omega)]
  simp only [Except.bind, Stream.readBytes]

theorem bitmap_parse_other (s : Stream) (decl : ResourceDeclaration)
    (hne40 : readU32At s.data s.pos ≠ 0x28) (hne12 : readU32At s.data s.pos ≠ 0x0c)
    (hlen : s.pos + 4 ≤ s.data.length) :
    Bitmap.parse s decl =
      .error "BitmapCoreHeader does not have expected length." := by
  unfold Bitmap.parse
  rw [bitmapInfoHeader_fails s hne40 hlen]
  simp only [Bind.bind, Except.bind]
  rw [seek_succeeds s s.pos (by omega)]
  simp only [Except.bind]
  rw [bitmapCoreHeader_fails ⟨s.data, s.pos⟩ hne12 hlen]

theorem icon_parse_modern (s : Stream) (decl : ResourceDeclaration)
    (h40 : readU32At s.data s.pos = 0x28) (hlen : s.pos + 40 ≤ s.data.length) :
    Icon.parse s decl = .ok ⟨decl.id, infoHeaderAt s.data s.pos,
      (s.data.drop s.pos).take decl.resource_length_in_bytes⟩ := by
  unfold Icon.parse
  rw [bitmapInfoHeader_parses s h40 hlen]
  simp only [Bind.bind, Except.bind]
  rw [seek_succeeds ⟨s.data, s.pos + 40⟩ s.pos (by simp only []; omega)]
  simp only [Except.bind, Stream.readBytes]

theorem icon_parse_not_modern (s : Stream) (decl : ResourceDeclaration)
    (hne : readU32At s.data s.pos ≠ 0x28) (hlen : s.pos + 4 ≤ s.data.length) :
    Icon.parse s decl =
      .error "BitmapInfoHeader does not have expected length." := by
  unfold Icon.parse
  rw [bitmapInfoHeader_fails s hne hlen]
  rfl

theorem bitmapInfoHeader_ok (s : Stream) (hdr : BitmapInfoHeader) (s' : Stream)
    (h : BitmapInfoHeader.parse s = .ok (hdr, s')) :
    s.pos + 40 ≤ s.data.length ∧ readU32At s.data s.pos = 0x28 := by
  unfold BitmapInfoHeader.parse at h
  obtain ⟨⟨v1, s1⟩, h1, h⟩ := bind_ok _ _ _ h
  obtain ⟨hv1, hs1, hle1⟩ := unpack32_ok s v1 s1 h1
  simp only at h
  by_cases hv40 : v1 = 0x28
  · rw [if_neg (by simp [hv40])] at h
    obtain ⟨⟨v2, s2⟩, h2, h⟩ := bind_ok _ _ _ h
    obtain ⟨hv2, hs2, _⟩ := unpackI32_ok _ _ _ h2
    simp only at h
    obtain ⟨⟨v3, s3⟩, h3, h⟩ := bind_ok _ _ _ h
    obtain ⟨hv3, hs3, _⟩ := unpackI32_ok _ _ _ h3
    simp only at h
    obtain ⟨⟨v4, s4⟩, h4, h⟩ := bind_ok _ _ _ h
    obtain ⟨hv4, hs4, _⟩ := unpack16_ok _ _ _ h4
    simp only at h
    obtain ⟨⟨v5, s5⟩, h5, h⟩ := bind_ok _ _ _ h
    obtain ⟨hv5, hs5, _⟩ := unpack16_ok _ _ _ h5
    simp only at h
    obtain ⟨⟨v6, s6⟩, h6, h⟩ := bind_ok _ _ _ h
    obtain ⟨hv6, hs6, _⟩ := unpack32_ok _ _ _ h6
    simp only at h
    obtain ⟨⟨v7, s7⟩, h7, h⟩ := bind_ok _ _ _ h
    obtain ⟨hv7, hs7, _⟩ := unpack32_ok _ _ _ h7
    simp only at h
    obtain ⟨⟨v8, s8⟩, h8, h⟩ := bind_ok _ _ _ h
    obtain ⟨hv8, hs8, _⟩ := unpackI32_ok _ _ _ h8
    simp only at h
    obtain ⟨⟨v9, s9⟩, h9, h⟩ := bind_ok _ _ _ h
    obtain ⟨hv9, hs9, _⟩ := unpackI32_ok _ _ _ h9
    simp only at h
    obtain ⟨⟨v10, s10⟩, h10, h⟩ := bind_ok _ _ _ h
    obtain ⟨hv10, hs10, _⟩ := unpack32_ok _ _ _ h10
    simp only at h
    obtain ⟨⟨v11, s11⟩, h11, h⟩ := bind_ok _ _ _ h
    obtain ⟨hv11, hs11, hle11⟩ := unpack32_ok _ _ _ h11
    subst hs1
    subst hs2
    subst hs3
    subst hs4
    subst hs5
    subst hs6
    subst hs7
    subst hs8
    subst hs9
    subst hs10
    have hle40 : s.pos + 4 + 4 + 4 + 2 + 2 + 4 + 4 + 4 + 4 + 4 + 4 ≤
        s.data.length := hle11
    refine ⟨by omega, by omega⟩
  · rw [if_pos hv40] at h
    exact absurd h (by simp)

theorem icon_parse_ok (s : Stream) (decl : ResourceDeclaration) (i : Icon)
    (h : Icon.parse s decl = .ok i) :
    i = ⟨decl.id, infoHeaderAt s.data s.pos,
      (s.data.drop s.pos).take decl.resource_length_in_bytes⟩ := by
  have horig := h
  unfold Icon.parse at h
  obtain ⟨⟨hdr, s1⟩, h1, h⟩ := bind_ok _ _ _ h
  obtain ⟨hlen, hval⟩ := bitmapInfoHeader_ok s hdr s1 h1
  rw [icon_parse_modern s decl hval hlen] at horig
  cases horig
  rfl

theorem cursor_parse_ok (s : Stream) (decl : ResourceDeclaration) (c : Cursor)
    (h : Cursor.parse s decl = .ok c) :
    c.is_in_group = false ∧ c.x_hotspot = readU16At s.data s.pos ∧
      c.y_hotspot = readU16At s.data (s.pos + 2) ∧
      Bitmap.parse ⟨s.data, s.pos + 4⟩ decl =
        .ok ⟨c.resource_id, c.bitmap_header, c.has_bitmap_core_header, c.data⟩ := by
  unfold Cursor.parse at h
  obtain ⟨⟨x, s1⟩, h1, h⟩ := bind_ok _ _ _ h
  obtain ⟨hx, hs1, _⟩ := unpack16_ok _ _ _ h1
  simp only at h
  obtain ⟨⟨y, s2⟩, h2, h⟩ := bind_ok _ _ _ h
  obtain ⟨hy, hs2, _⟩ := unpack16_ok _ _ _ h2
  simp only at h
  obtain ⟨b, hb, h⟩ := bind_ok _ _ _ h
  cases h
  subst hs1
  subst hs2
  subst hx
  subst hy
  rw [show s.pos + 2 + 2 = s.pos + 4 by omega] at hb
  exact ⟨rfl, rfl, rfl, hb⟩

/-- C5 as amended: bitmap decode attempts the 40-byte modern header, and
when the declared header length is not 40 it rewinds and parses the
12-byte legacy header, failing only when that length is not 12 either;
cursor decode reads a leading 16-bit hotspot pair and then equals bitmap
decode; but icon decode parses only the modern header — a payload whose
declared header length is 12 decodes as a bitmap via the legacy path yet
fails as an icon. -/
theorem c5_header_fallback :
    (∀ (s : Stream) (decl : ResourceDeclaration),
      readU32At s.data s.pos = 0x28 → s.pos + 40 ≤ s.data.length →
      Bitmap.parse s decl = .ok ⟨decl.id, .info (infoHeaderAt s.data s.pos),
        false, (s.data.drop s.pos).take decl.resource_length_in_bytes⟩ ∧
      Icon.parse s decl = .ok ⟨decl.id, infoHeaderAt s.data s.pos,
        (s.data.drop s.pos).take decl.resource_length_in_bytes⟩) ∧
    (∀ (s : Stream) (decl : ResourceDeclaration),
      readU32At s.data s.pos = 0x0c → s.pos + 12 ≤ s.data.length →
      Bitmap.parse s decl = .ok ⟨decl.id, .core (coreHeaderAt s.data s.pos),
        true, (s.data.drop s.pos).take decl.resource_length_in_bytes⟩ ∧
      Icon.parse s decl =
        .error "BitmapInfoHeader does not have expected length.") ∧
    (∀ (s : Stream) (decl : ResourceDeclaration),
      readU32At s.data s.pos ≠ 0x28 → readU32At s.data s.pos ≠ 0x0c →
      s.pos + 4 ≤ s.data.length →
      Bitmap.parse s decl =
        .error "BitmapCoreHeader does not have expected length.") ∧
    (∀ (s : Stream) (decl : ResourceDeclaration) (c : Cursor),
      Cursor.parse s decl = .ok c →
      c.x_hotspot = readU16At s.data s.pos ∧
      c.y_hotspot = readU16At s.data (s.pos + 2) ∧
      Bitmap.parse ⟨s.data, s.pos + 4⟩ decl =
        .ok ⟨c.resource_id, c.bitmap_header, c.has_bitmap_core_header, c.data⟩) := by
  refine ⟨?_, ?_, ?_, ?_⟩
  · intro s decl h40 hlen
    exact ⟨bitmap_parse_modern s decl h40 hlen, icon_parse_modern s decl h40 hlen⟩
  · intro s decl h12 hlen
    exact ⟨bitmap_parse_legacy s decl h12 hlen,
      icon_parse_not_modern s decl (by omega) (by omega)⟩
  · intro s decl hne40 hne12 hlen
    exact bitmap_parse_other s decl hne40 hne12 hlen
  · intro s decl c h
    obtain ⟨_, hx, hy, hb⟩ := cursor_parse_ok s decl c h
    exact ⟨hx, hy, hb⟩

def c5LegacyStream : Stream := ⟨[12, 0, 0, 0, 16, 0, 16, 0, 1, 0, 4, 0], 0⟩

def c5LegacyDecl : ResourceDeclaration := ⟨0, 12, 0, .num 7⟩

/-- Counterexample to C5 as stated: this legacy-header payload decodes via
the 12-byte fallback as a bitmap, but icon decode — which the claim says
equals bitmap decode — raises instead of falling back. -/
theorem c5_counterexample :
    Bitmap.parse c5LegacyStream c5LegacyDecl =
      .ok ⟨.num 7, .core ⟨12, 16, 16, 1, 4⟩, true, c5LegacyStream.data⟩ ∧
    Icon.parse c5LegacyStream c5LegacyDecl =
      .error "BitmapInfoHeader does not have expected length." :=
  ⟨rfl, rfl⟩

def c5ModernStream : Stream :=
  ⟨[40, 0, 0, 0, 16, 0, 0, 0, 32, 0, 0, 0, 1, 0, 4, 0, 0, 0, 0, 0, 0, 0, 0, 0,
    0, 0, 0, 0, 0, 0, 0, 0, 16, 0, 0, 0, 0, 0, 0, 0], 0⟩

def c5ModernDecl : ResourceDeclaration := ⟨0, 40, 0, .num 3⟩

def c5CursorStream : Stream :=
  ⟨[7, 0, 9, 0] ++ c5ModernStream.data, 0⟩

def c5CursorDecl : ResourceDeclaration := ⟨0, 40, 0, .num 4⟩

def c5CursorResult : Cursor :=
  ⟨false, 7, 9, .num 4, .info (infoHeaderAt c5CursorStream.data 4), false,
    (c5CursorStream.data.drop 4).take 40⟩

/-- Witness for C5: the two header shapes and the cursor hotspot prefix at
concrete payloads. -/
theorem c5_witness :
    (Bitmap.parse c5ModernStream c5ModernDecl =
        .ok ⟨.num 3, .info (infoHeaderAt c5ModernStream.data 0), false,
          (c5ModernStream.data.drop 0).take 40⟩ ∧
      Icon.parse c5ModernStream c5ModernDecl =
        .ok ⟨.num 3, infoHeaderAt c5ModernStream.data 0,
          (c5ModernStream.data.drop 0).take 40⟩) ∧
    (Bitmap.parse c5LegacyStream c5LegacyDecl =
        .ok ⟨.num 7, .core (coreHeaderAt c5LegacyStream.data 0), true,
          (c5LegacyStream.data.drop 0).take 12⟩ ∧
      Icon.parse c5LegacyStream c5LegacyDecl =
        .error "BitmapInfoHeader does not have expected length.") ∧
    (c5CursorResult.x_hotspot = readU16At c5CursorStream.data 0 ∧
      c5CursorResult.y_hotspot = readU16At c5CursorStream.data (0 + 2) ∧
      Bitmap.parse ⟨c5CursorStream.data, 0 + 4⟩ c5CursorDecl =
        .ok ⟨c5CursorResult.resource_id, c5CursorResult.bitmap_header,
          c5CursorResult.has_bitmap_core_header, c5CursorResult.data⟩) :=
  ⟨c5_header_fallback.1 c5ModernStream c5ModernDecl (by decide) (by decide),
   c5_header_fallback.2.1 c5LegacyStream c5LegacyDecl (by decide) (by decide),
   c5_header_fallback.2.2.2 c5CursorStream c5CursorDecl c5CursorResult rfl⟩

/-- C10: the synthesized directory entry of a standalone icon export
carries the decoded DIB header width unchanged and the decoded DIB header
height floor-divided by 2 (the stored header height of an icon resource
counts both the image and its mask), where the header width and height
are the signed 32-bit fields at offsets 4 and 8 of the icon payload. -/
theorem c10_entry_height_halved :
    ∀ (s : Stream) (decl : ResourceDeclaration) (i : Icon),
      Icon.parse s decl = .ok i →
      i.ico_directory_entry.height = i.bitmap_header.height.fdiv 2 ∧
      i.ico_directory_entry.width = i.bitmap_header.width ∧
      i.bitmap_header.height = readI32At s.data (s.pos + 8) ∧
      i.bitmap_header.width = readI32At s.data (s.pos + 4) := by
  intro s decl i h
  rw [icon_parse_ok s decl i h]
  exact ⟨rfl, rfl, rfl, rfl⟩

def c10Icon : Icon :=
  ⟨.num 3, infoHeaderAt c5ModernStream.data 0,
    (c5ModernStream.data.drop 0).take 40⟩

/-- Witness for C10 at a 16-wide, 32-high icon payload: the exported entry
height is 16 while the header stores 32. -/
theorem c10_witness :
    Icon.parse c5ModernStream c5ModernDecl = .ok c10Icon ∧
    (c10Icon.ico_directory_entry.height = c10Icon.bitmap_header.height.fdiv 2 ∧
      c10Icon.ico_directory_entry.width = c10Icon.bitmap_header.width ∧
      c10Icon.bitmap_header.height = readI32At c5ModernStream.data (0 + 8) ∧
      c10Icon.bitmap_header.width = readI32At c5ModernStream.data (0 + 4)) :=
  ⟨rfl, c10_entry_height_halved c5ModernStream c5ModernDecl c10Icon rfl⟩

/-- C3 as amended: only cursors carry the group flag and guard their
export — a decoded cursor whose `is_in_group` is false fails with
`ValueError` raised before any file is opened (so nothing is written),
while a cursor whose flag is true is exported as a silent no-op with its
group.  (Icons carry no flag and export unconditionally; see the
counterexample.) -/
theorem c3_unattached_cursor_export :
    ∀ (c : Cursor) (filepath : String),
      (c.is_in_group = false →
        Cursor.export c filepath = .error ("Cannot export cursor " ++
          c.resource_id.pyStr ++ " since it is not part of a group.")) ∧
      (c.is_in_group = true → Cursor.export c filepath = .ok []) := by
  intro c filepath
  constructor
  · intro h
    simp [Cursor.export, h]
  · intro h
    simp [Cursor.export, h]

def c3Icon : Icon := ⟨.num 9, ⟨40, 16, 32, 1, 4, 0, 0, 0, 0, 2, 0⟩, [9, 9]⟩

/-- Counterexample to C3 as stated: a decoded icon resource carries no
`belongs_to_group` attribute at all, and its export does not fail — it
writes a complete single-entry ICO file. -/
theorem c3_counterexample :
    Resource.isInGroup (.icon c3Icon) = none ∧
    Icon.export c3Icon "file" = .ok [("file.ico",
      [0, 0, 1, 0, 1, 0, 16, 16, 2, 0, 1, 0, 4, 0, 2, 0, 0, 0, 22, 0, 0, 0,
        9, 9])] :=
  ⟨rfl, rfl⟩

def c3Cursor : Cursor :=
  ⟨false, 3, 4, .num 5, .info ⟨40, 16, 32, 1, 4, 0, 0, 0, 0, 2, 0⟩, false,
    [1, 2, 3]⟩

/-- Witness for C3 (amended) at a concrete unattached cursor. -/
theorem c3_witness :
    c3Cursor.is_in_group = false ∧
    Cursor.export c3Cursor "out" =
      .error "Cannot export cursor 5 since it is not part of a group." :=
  ⟨rfl, (c3_unattached_cursor_export c3Cursor "out").1 rfl⟩

theorem icon_write_ico (i : Icon)
    (hw0 : 0 ≤ i.bitmap_header.width) (hw : i.bitmap_header.width < 256)
    (hh0 : 0 ≤ i.bitmap_header.height.fdiv 2)
    (hh : i.bitmap_header.height.fdiv 2 < 256)
    (hc : i.bitmap_header.total_palette_colors < 65536)
    (hp : i.bitmap_header.color_planes < 65536)
    (hb : i.bitmap_header.bits_per_pixel < 65536)
    (hd : i.data.length < 4294967296) :
    Icon.write_ico_file i = .ok ([0, 0, 1, 0, 1, 0] ++
      ([i.bitmap_header.width.toNat] ++ [(i.bitmap_header.height.fdiv 2).toNat] ++
        natToBytesLE 2 i.bitmap_header.total_palette_colors ++
        natToBytesLE 2 i.bitmap_header.color_planes ++
        natToBytesLE 2 i.bitmap_header.bits_per_pixel ++
        natToBytesLE 4 i.data.length ++ natToBytesLE 4 22) ++ i.data) := by
  unfold Icon.write_ico_file
  have hdir : (Icon.ico_directory i).encode = .ok [0, 0, 1, 0, 1, 0] := by
    unfold Icon.ico_directory IconDirectory.encode IconDirectory.init
    rfl
  rw [hdir]
  simp only [Bind.bind, Except.bind]
  have hentry : (Icon.ico_directory_entry i).encode false =
      .ok ([i.bitmap_header.width.toNat] ++
        [(i.bitmap_header.height.fdiv 2).toNat] ++
        natToBytesLE 2 i.bitmap_header.total_palette_colors ++
        natToBytesLE 2 i.bitmap_header.color_planes ++
        natToBytesLE 2 i.bitmap_header.bits_per_pixel ++
        natToBytesLE 4 i.data.length ++ natToBytesLE 4 22) := by
    unfold IconDirectoryEntry.encode Icon.ico_directory_entry
    simp only
    rw [packIntU, if_pos (by constructor <;> [exact hw0; simpa using hw])]
    simp only [Bind.bind, Except.bind]
    rw [packIntU, if_pos (by constructor <;> [exact hh0; simpa using hh])]
    simp only [Bind.bind, Except.bind]
    rw [packU16, packUInt, if_pos (by norm_num; exact hc)]
    simp only [Bind.bind, Except.bind]
    rw [packU16, packUInt, if_pos (by norm_num; exact hp)]
    simp only [Bind.bind, Except.bind]
    rw [packU16, packUInt, if_pos (by norm_num; exact hb)]
    simp only [Bind.bind, Except.bind]
    rw [packU32, packUInt, if_pos (by norm_num; exact hd)]
    simp only [Bind.bind, Except.bind]
    rw [if_neg (by simp)]
    rw [packOptU, packUInt,
      if_pos (by norm_num [IconDirectory.LENGTH_IN_BYTES,
        IconDirectoryEntry.LENGTH_IN_BYTES])]
    simp only [Bind.bind, Except.bind]
    have h1 : natToBytesLE 1 i.bitmap_header.width.toNat =
        [i.bitmap_header.width.toNat] := by
      simp [natToBytesLE,
        Nat.mod_eq_of_lt (by omega : i.bitmap_header.width.toNat < 256)]
    have h2 : natToBytesLE 1 (i.bitmap_header.height.fdiv 2).toNat =
        [(i.bitmap_header.height.fdiv 2).toNat] := by
      simp [natToBytesLE, Nat.mod_eq_of_lt
        (by omega : (i.bitmap_header.height.fdiv 2).toNat < 256)]
    rw [h1, h2]
    norm_num [IconDirectory.LENGTH_IN_BYTES, IconDirectoryEntry.LENGTH_IN_BYTES]
  rw [hentry]

/-- C8 as amended: every non-grouped ICON can be individually exported as
a standalone single-entry container (6-byte directory with entry count 1,
one 16-byte entry whose stored byte offset is 22, then the raw payload);
non-grouped cursors, by contrast, refuse export (see the counterexample).
The hypotheses are the ranges Python pack calls enforce. -/
theorem c8_icon_standalone (i : Icon) (filepath : String)
    (hw0 : 0 ≤ i.bitmap_header.width) (hw : i.bitmap_header.width < 256)
    (hh0 : 0 ≤ i.bitmap_header.height.fdiv 2)
    (hh : i.bitmap_header.height.fdiv 2 < 256)
    (hc : i.bitmap_header.total_palette_colors < 65536)
    (hp : i.bitmap_header.color_planes < 65536)
    (hb : i.bitmap_header.bits_per_pixel < 65536)
    (hd : i.data.length < 4294967296) :
    ∃ content, Icon.export i filepath = .ok [(filepath ++ ".ico", content)] ∧
      content.length = 22 + i.data.length ∧
      readU16At content 4 = 1 ∧
      readU32At content 18 = 22 ∧
      content.drop 22 = i.data := by
  have hw' := icon_write_ico i hw0 hw hh0 hh hc hp hb hd
  refine ⟨[0, 0, 1, 0, 1, 0] ++
      ([i.bitmap_header.width.toNat] ++ [(i.bitmap_header.height.fdiv 2).toNat] ++
        natToBytesLE 2 i.bitmap_header.total_palette_colors ++
        natToBytesLE 2 i.bitmap_header.color_planes ++
        natToBytesLE 2 i.bitmap_header.bits_per_pixel ++
        natToBytesLE 4 i.data.length ++ natToBytesLE 4 22) ++ i.data,
    ?_, ?_, ?_, ?_, ?_⟩
  · unfold Icon.export
    rw [hw']
    simp only [Bind.bind, Except.bind]
  · simp [natToBytesLE_length]
    omega
  · rw [readU16At_append_left _ _ 4 (by simp [natToBytesLE_length]),
      readU16At_append_left _ _ 4 (by simp)]
    decide
  · rw [readU32At_append_left _ _ 18 (by simp [natToBytesLE_length]),
      show (18 : Nat) = ([0, 0, 1, 0, 1, 0] : List Nat).length + 12 by simp,
      readU32At_append_right,
      show ([i.bitmap_header.width.toNat] ++
          [(i.bitmap_header.height.fdiv 2).toNat] ++
          natToBytesLE 2 i.bitmap_header.total_palette_colors ++
          natToBytesLE 2 i.bitmap_header.color_planes ++
          natToBytesLE 2 i.bitmap_header.bits_per_pixel ++
          natToBytesLE 4 i.data.length ++ natToBytesLE 4 22) =
        ([i.bitmap_header.width.toNat] ++
          [(i.bitmap_header.height.fdiv 2).toNat] ++
          natToBytesLE 2 i.bitmap_header.total_palette_colors ++
          natToBytesLE 2 i.bitmap_header.color_planes ++
          natToBytesLE 2 i.bitmap_header.bits_per_pixel ++
          natToBytesLE 4 i.data.length) ++ natToBytesLE 4 22 from rfl,
      show (12 : Nat) = ([i.bitmap_header.width.toNat] ++
          [(i.bitmap_header.height.fdiv 2).toNat] ++
          natToBytesLE 2 i.bitmap_header.total_palette_colors ++
          natToBytesLE 2 i.bitmap_header.color_planes ++
          natToBytesLE 2 i.bitmap_header.bits_per_pixel ++
          natToBytesLE 4 i.data.length).length + 0
        by simp [natToBytesLE_length],
      readU32At_append_right]
    exact readU32At_bytesLE 22 (by norm_num)
  · exact List.drop_left' (by simp [natToBytesLE_length])

def c8Cursor : Cursor :=
  ⟨false, 1, 2, .num 11, .info ⟨40, 32, 64, 1, 8, 0, 0, 0, 0, 0, 0⟩, false,
    [5, 5, 5, 5]⟩

/-- Counterexample to C8 as stated: a non-grouped cursor resource cannot
be exported standalone — `Cursor.export` raises instead of synthesizing a
one-entry directory. -/
theorem c8_counterexample :
    c8Cursor.is_in_group = false ∧
    Cursor.export c8Cursor "solo" =
      .error "Cannot export cursor 11 since it is not part of a group." :=
  ⟨rfl, rfl⟩

def c8Icon : Icon := ⟨.num 12, ⟨40, 24, 48, 1, 8, 0, 0, 0, 0, 0, 0⟩, [1, 2, 3]⟩

/-- Witness for C8 (amended) at a concrete standalone icon. -/
theorem c8_witness :
    ∃ content, Icon.export c8Icon "solo2" = .ok [("solo2.ico", content)] ∧
      content.length = 22 + c8Icon.data.length ∧
      readU16At content 4 = 1 ∧
      readU32At content 18 = 22 ∧
      content.drop 22 = c8Icon.data :=
  c8_icon_standalone c8Icon "solo2" (by decide) (by decide) (by decide)
    (by decide) (by decide) (by decide) (by decide) (by decide)

def c2Stream : Stream := ⟨List.replicate 32 0, 0⟩

def c2Tables : List (TypeKey × ResourceTypeTable) :=
  [(.rt .RT_ICON, ⟨.rt .RT_ICON, [⟨64, 16, 0, .num 1⟩, ⟨0, 16, 0, .num 2⟩]⟩)]

def c2TablesGood : List (TypeKey × ResourceTypeTable) :=
  [(.rt .RT_ICON, ⟨.rt .RT_ICON, [⟨0, 16, 0, .num 2⟩]⟩)]

/-- C2 failing input evaluated: a 32-byte stream and an RT_ICON table whose
first declaration has effective data offset 0x40 (raw 4 shifted by 4) —
past the end of the stream.  The seek on resource_table.py line 133 stands
outside the `try`/`except`, so the whole materialization aborts with the
seek error and even the well-formed sibling declaration (id 2) is lost;
with the bad declaration removed the sibling materializes fine (its icon
decode fails and is downgraded to a raw-data capture, as the claim
describes). -/
theorem c2_failing_input_aborts :
    ResourceTable.materialize c2Stream c2Tables = .error "seek out of range" ∧
    ResourceTable.materialize c2Stream c2TablesGood =
      .ok [(.rt .RT_ICON, [(.num 2, .appData ⟨List.replicate 16 0⟩)])] :=
  ⟨rfl, rfl⟩

theorem dictGet_update_cases {α β : Type} [DecidableEq α] (d : List (α × β))
    (k k' : α) (v : β) :
    dictGet (dictUpdate d k v) k' = if k' = k then some v else dictGet d k' := by
  by_cases h : k' = k
  · rw [if_pos h, h, dictGet_update_self]
  · rw [if_neg h, dictGet_update_ne d k k' v h]

/-- Unfolding of `find_resource_by_id` on a hit. -/
theorem findResourceById_ok (cache : Cache) (rid : ResId) (tid : TypeKey)
    (r : Resource) (h : findResourceById cache rid tid = .ok r) :
    ∃ inner, dictGet cache tid = some inner ∧ dictGet inner rid = some r := by
  unfold findResourceById at h
  cases hti : dictGet cache tid with
  | none => rw [hti] at h; exact absurd h (by simp)
  | some inner =>
    rw [hti] at h
    simp only at h
    cases hin : dictGet inner rid with
    | none => rw [hin] at h; exact absurd h (by simp)
    | some r' =>
      rw [hin] at h
      cases h
      exact ⟨inner, rfl, hin⟩

/-- The `Cursor` shape is preserved and the flag is raised by
`setInGroup`. -/
theorem setInGroup_cursor (cc : Cursor) :
    (Resource.cursor cc).setInGroup = .cursor { cc with is_in_group := true } :=
  rfl

/-- Invariant of the `GroupCursor.__init__` resolution loop: when every
cached RT_CURSOR resource is an actual `Cursor`, every member the loop has
resolved carries `is_in_group = true`, both in the group's own dict and in
the cache the loop returns. -/
theorem groupCursorLoop_ok (entries : List CursorDirectoryEntry) :
    ∀ (cache : Cache) (acc out : List (Nat × Resource)) (cache' : Cache),
    (∀ (key : ResId) (r : Resource),
      dictGet ((dictGet cache (TypeKey.rt .RT_CURSOR)).getD []) key = some r →
      ∃ cc : Cursor, r = .cursor cc) →
    (∀ (key : Nat) (r : Resource), dictGet acc key = some r →
      r.isInGroup = some true ∧
      findResourceById cache (.num key) (TypeKey.rt .RT_CURSOR) = .ok r) →
    groupCursorLoop entries cache acc = (.ok out, cache') →
    ∀ (key : Nat) (r : Resource), dictGet out key = some r →
      r.isInGroup = some true ∧
      findResourceById cache' (.num key) (TypeKey.rt .RT_CURSOR) = .ok r := by
  induction entries with
  | nil =>
    intro cache acc out cache' _ hacc h
    unfold groupCursorLoop at h
    cases h
    exact hacc
  | cons e rest ih =>
    intro cache acc out cache' hcur hacc h
    unfold groupCursorLoop at h
    cases hfind : findResourceById cache (.num e.cursor_resource_id)
        (TypeKey.rt .RT_CURSOR) with
    | error m => rw [hfind] at h; exact absurd h (by simp)
    | ok found =>
      rw [hfind] at h
      simp only at h
      obtain ⟨inner, hti, hin⟩ := findResourceById_ok _ _ _ _ hfind
      obtain ⟨cc, hcc⟩ := hcur (.num e.cursor_resource_id) found
        (by rw [hti]; simpa using hin)
      subst hcc
      rw [setInGroup_cursor] at h
      refine ih _ _ _ _ ?_ ?_ h
      · intro key r hkr
        rw [show cacheSet cache (TypeKey.rt .RT_CURSOR)
            (.num e.cursor_resource_id) (.cursor { cc with is_in_group := true }) =
          dictUpdate cache (TypeKey.rt .RT_CURSOR)
            (dictUpdate inner (.num e.cursor_resource_id)
              (.cursor { cc with is_in_group := true }))
          from by simp [cacheSet, hti]] at hkr
        rw [dictGet_update_self] at hkr
        simp only [Option.getD_some] at hkr
        rw [dictGet_update_cases] at hkr
        by_cases hkey : key = ResId.num e.cursor_resource_id
        · rw [if_pos hkey] at hkr
          cases hkr
          exact ⟨_, rfl⟩
        · rw [if_neg hkey] at hkr
          exact hcur key r (by rw [hti]; simpa using hkr)
      · intro key r hkr
        rw [dictGet_update_cases] at hkr
        rw [show cacheSet cache (TypeKey.rt .RT_CURSOR)
            (.num e.cursor_resource_id) (.cursor { cc with is_in_group := true }) =
          dictUpdate cache (TypeKey.rt .RT_CURSOR)
            (dictUpdate inner (.num e.cursor_resource_id)
              (.cursor { cc with is_in_group := true }))
          from by simp [cacheSet, hti]]
        by_cases hkey : key = e.cursor_resource_id
        · rw [if_pos hkey] at hkr
          cases hkr
          refine ⟨rfl, ?_⟩
          rw [hkey]
          unfold findResourceById
          rw [dictGet_update_self]
          simp only
          rw [dictGet_update_self]
        · rw [if_neg hkey] at hkr
          obtain ⟨hflag, hfindold⟩ := hacc key r hkr
          refine ⟨hflag, ?_⟩
          obtain ⟨innerK, htiK, hinK⟩ := findResourceById_ok _ _ _ _ hfindold
          rw [hti] at htiK
          injection htiK with hik
          subst hik
          unfold findResourceById
          rw [dictGet_update_self]
          simp only
          have hne : ResId.num key ≠ ResId.num e.cursor_resource_id := by
            intro hcontra
            exact hkey (by injection hcontra)
          rw [dictGet_update_ne inner (ResId.num e.cursor_resource_id)
            (ResId.num key) _ hne, hinK]

/-- C1 as amended: every decoded Cursor starts with `is_in_group = false`,
and materializing a GroupCursor sets the flag to true on every member it
resolved, both on the member stored in the group and on the shared cache
entry (provided the cached RT_CURSOR resources are actual cursors, which
is what a successful cursor decode produces).  GroupIcon materialization,
by contrast, sets no flag at all: it leaves the cache untouched, and Icon
objects carry no such attribute in the first place (see the
counterexample). -/
theorem c1_cursor_group_flag :
    (∀ (s : Stream) (decl : ResourceDeclaration) (c : Cursor),
      Cursor.parse s decl = .ok c → c.is_in_group = false) ∧
    (∀ (s : Stream) (decl : ResourceDeclaration) (cache : Cache)
      (rid : ResId) (dir : CursorDirectory) (cursors : List (Nat × Resource))
      (cache' : Cache),
      (∀ (key : ResId) (r : Resource),
        dictGet ((dictGet cache (TypeKey.rt .RT_CURSOR)).getD []) key = some r →
        ∃ cc : Cursor, r = .cursor cc) →
      GroupCursor.parse s decl cache = (.ok (.groupCursor rid dir cursors), cache') →
      ∀ (key : Nat) (r : Resource), dictGet cursors key = some r →
        r.isInGroup = some true ∧
        findResourceById cache' (.num key) (TypeKey.rt .RT_CURSOR) = .ok r) ∧
    (∀ (s : Stream) (decl : ResourceDeclaration) (cache : Cache)
      (res : Except String Resource) (cache' : Cache),
      GroupIcon.parse s decl cache = (res, cache') → cache' = cache) := by
  refine ⟨?_, ?_, ?_⟩
  · intro s decl c h
    exact (cursor_parse_ok s decl c h).1
  · intro s decl cache rid dir cursors cache' hcur h
    unfold GroupCursor.parse at h
    cases hdir : CursorDirectory.decode s with
    | error m => rw [hdir] at h; cases h
    | ok ds =>
      rw [hdir] at h
      simp only at h
      cases hloop : groupCursorLoop ds.1.directory_entries cache [] with
      | mk resLoop cacheLoop =>
        rw [hloop] at h
        cases resLoop with
        | error m => simp only at h; cases h
        | ok curs =>
          simp only [Prod.mk.injEq, Except.ok.injEq,
            Resource.groupCursor.injEq] at h
          obtain ⟨⟨hrid, hdir2, hcurs⟩, hcache⟩ := h
          subst hcurs
          subst hcache
          exact groupCursorLoop_ok ds.1.directory_entries cache [] curs
            cacheLoop hcur (by intro key r hkr; cases hkr) hloop
  · intro s decl cache res cache' h
    unfold GroupIcon.parse at h
    cases hdir : IconDirectory.decode s with
    | error m => rw [hdir] at h; cases h; rfl
    | ok ds =>
      rw [hdir] at h
      simp only at h
      cases hloop : groupIconLoop ds.1.icon_count ds.2 cache [] with
      | error m => rw [hloop] at h; cases h; rfl
      | ok icons => rw [hloop] at h; simp only at h; cases h; rfl

def c1IconPayload : List Nat :=
  [40, 0, 0, 0, 16, 0, 0, 0, 32, 0, 0, 0, 1, 0, 4, 0, 0, 0, 0, 0, 0, 0, 0, 0,
   0, 0, 0, 0, 0, 0, 0, 0, 16, 0, 0, 0, 0, 0, 0, 0]

def c1GroupIconPayload : List Nat :=
  [0, 0, 1, 0, 1, 0] ++ [16, 16, 0, 0, 1, 0, 4, 0, 40, 0, 0, 0, 1, 0]

def c1Stream : Stream := ⟨c1IconPayload ++ c1GroupIconPayload, 0⟩

def c1Tables : List (TypeKey × ResourceTypeTable) :=
  [(.rt .RT_GROUP_ICON, ⟨.rt .RT_GROUP_ICON, [⟨40, 20, 0, .num 1⟩]⟩),
   (.rt .RT_ICON, ⟨.rt .RT_ICON, [⟨0, 40, 0, .num 1⟩]⟩)]

/-- Read the `is_in_group`/`belongs_to_group` attribute of one resource
after a full materialization pass (observation harness for C1). -/
def flagAfterMaterialize (stream : Stream)
    (tables : List (TypeKey × ResourceTypeTable)) (t : TypeKey) (rid : ResId) :
    Except String (Option Bool) := do
  let cache ← ResourceTable.materialize stream tables
  let r ← findResourceById cache rid t
  .ok r.isInGroup

/-- Counterexample to C1 as stated: materializing a table in which a
GroupIcon references icon 1 leaves icon 1 with NO group flag at all
(`none` — the attribute does not exist on `Icon`), not `some true`:
`GroupIcon.__init__` never sets a flag on its members and `Icon.__init__`
never creates one. -/
theorem c1_counterexample :
    flagAfterMaterialize c1Stream c1Tables (.rt .RT_ICON) (.num 1) =
      .ok none := rfl

def c1wCursor : Cursor :=
  ⟨false, 3, 4, .num 5, .info ⟨40, 16, 64, 1, 4, 0, 0, 0, 0, 0, 0⟩, false, [1, 2]⟩

def c1wCursorFlagged : Cursor := { c1wCursor with is_in_group := true }

def c1wCache : Cache := [(.rt .RT_CURSOR, [(.num 5, .cursor c1wCursor)])]

def c1wStream : Stream :=
  ⟨[0, 0, 2, 0, 1, 0, 16, 0, 64, 0, 1, 0, 4, 0, 2, 0, 0, 0, 5, 0], 0⟩

def c1wEntry : CursorDirectoryEntry := ⟨16, 64, 32, 1, 4, 2, 5⟩

def c1wDir : CursorDirectory := ⟨0, 2, 1, [c1wEntry]⟩

def c1wCacheAfter : Cache := [(.rt .RT_CURSOR, [(.num 5, .cursor c1wCursorFlagged)])]

def c1wParseStream : Stream := ⟨[3, 0, 4, 0] ++ c1IconPayload, 0⟩

def c1wParseDecl : ResourceDeclaration := ⟨0, 44, 0, .num 5⟩

def c1wDecoded : Cursor :=
  ⟨false, 3, 4, .num 5, .info (infoHeaderAt c1wParseStream.data 4), false,
    (c1wParseStream.data.drop 4).take 44⟩

/-- Witness for C1 (amended): a freshly decoded cursor has the flag false,
and after a concrete GroupCursor referencing cursor 5 is materialized the
resolved member and the cache entry both show the flag true. -/
theorem c1_witness :
    c1wDecoded.is_in_group = false ∧
    ((Resource.cursor c1wCursorFlagged).isInGroup = some true ∧
      findResourceById c1wCacheAfter (.num 5) (TypeKey.rt .RT_CURSOR) =
        .ok (.cursor c1wCursorFlagged)) := by
  refine ⟨?_, ?_⟩
  · exact c1_cursor_group_flag.1 c1wParseStream c1wParseDecl c1wDecoded rfl
  · exact c1_cursor_group_flag.2.1 c1wStream ⟨0, 20, 0, .num 9⟩ c1wCache
      (.num 9) c1wDir [(5, .cursor c1wCursorFlagged)] c1wCacheAfter
      (by
        intro key r hkr
        by_cases hk : (ResId.num 5 : ResId) = key
        · rw [show (dictGet c1wCache (TypeKey.rt .RT_CURSOR)).getD [] =
            [(.num 5, .cursor c1wCursor)] from rfl] at hkr
          rw [dictGet, if_pos hk] at hkr
          cases hkr
          exact ⟨c1wCursor, rfl⟩
        · rw [show (dictGet c1wCache (TypeKey.rt .RT_CURSOR)).getD [] =
            [(.num 5, .cursor c1wCursor)] from rfl] at hkr
          rw [dictGet, if_neg hk] at hkr
          cases hkr)
      rfl 5 (.cursor c1wCursorFlagged) rfl

def c4IconA : Icon := ⟨.num 1, ⟨40, 16, 32, 1, 4, 0, 0, 0, 0, 2, 0⟩, [9, 9]⟩

def c4IconB : Icon := ⟨.num 2, ⟨40, 16, 32, 1, 4, 0, 0, 0, 0, 2, 0⟩, [7, 7, 7]⟩

/-- Counterexample to C4 as stated: re-exporting a decoded GroupIcon with
two members does NOT produce a single container with cumulative member
offsets — it opens the same path twice in write mode, each time writing a
complete single-entry ICO (each with entry offset 22 and its own 6+16-byte
headers), so the second write clobbers the first and no file ever holds
both members. -/
theorem c4_counterexample :
    GroupIcon.export [(1, .icon c4IconA), (2, .icon c4IconB)] "p" =
      .ok [("p.ico",
        [0, 0, 1, 0, 1, 0, 16, 16, 2, 0, 1, 0, 4, 0, 2, 0, 0, 0, 22, 0, 0, 0,
         9, 9]),
        ("p.ico",
        [0, 0, 1, 0, 1, 0, 16, 16, 2, 0, 1, 0, 4, 0, 3, 0, 0, 0, 22, 0, 0, 0,
         7, 7, 7])] := rfl

/-- The cumulative image start offsets `GroupCursor.export` computes:
`base`, then `base` plus each prior payload length. -/
def cumOffsets (base : Nat) : List Nat → List Nat
  | [] => []
  | n :: rest => base :: cumOffsets (base + n) rest

theorem cumOffsets_length (lens : List Nat) :
    ∀ base, (cumOffsets base lens).length = lens.length := by
  induction lens with
  | nil => intro base; rfl
  | cons n rest ih => intro base; simp [cumOffsets, ih]

theorem cumOffsets_getD (lens : List Nat) :
    ∀ (base i : Nat), i < lens.length →
      (cumOffsets base lens).getD i 0 = base + (lens.take i).sum := by
  induction lens with
  | nil => intro base i h; simp at h
  | cons n rest ih =>
    intro base i h
    cases i with
    | zero => simp [cumOffsets]
    | succ i =>
      simp only [cumOffsets, List.getD_cons_succ, List.take_succ_cons,
        List.sum_cons]
      rw [ih (base + n) i (by simpa using h)]
      omega

theorem cumOffsets_le (lens : List Nat) :
    ∀ (base p : Nat), p ∈ cumOffsets base lens → p ≤ base + lens.sum := by
  induction lens with
  | nil => intro base p h; cases h
  | cons n rest ih =>
    intro base p h
    rcases List.mem_cons.mp h with h | h
    · omega
    · have := ih (base + n) p h
      simp only [List.sum_cons]
      omega

theorem pointerLoop_cursors (cs : List (Nat × Cursor)) :
    ∀ base, pointerLoop (cs.map fun kc => (kc.1, Resource.cursor kc.2)) base =
      .ok (cumOffsets base (cs.map fun kc => kc.2.data.length)) := by
  induction cs with
  | nil => intro base; rfl
  | cons kc rest ih =>
    intro base
    simp only [List.map_cons, pointerLoop, Resource.dataBytes, cumOffsets,
      Bind.bind, Except.bind, ih (base + kc.2.data.length)]

theorem payloadLoop_cursors (cs : List (Nat × Cursor)) :
    payloadLoop (cs.map fun kc => (kc.1, Resource.cursor kc.2)) =
      .ok (cs.map fun kc => kc.2.data).flatten := by
  induction cs with
  | nil => rfl
  | cons kc rest ih =>
    simp only [List.map_cons, payloadLoop, Resource.dataBytes, Bind.bind,
      Except.bind, ih, List.flatten_cons]

theorem cursorEntry_encode_ok (e : CursorDirectoryEntry) (ptr x y : Nat)
    (hw : e.width < 256) (hh : e.height < 256)
    (hx : x < 65536) (hy : y < 65536)
    (hs : e.cursor_size_in_bytes < 4294967296) (hp : ptr < 4294967296) :
    e.encode ptr x y = .ok (natToBytesLE 1 e.width ++ natToBytesLE 1 e.height ++
      [0] ++ [0] ++ natToBytesLE 2 x ++ natToBytesLE 2 y ++
      natToBytesLE 4 e.cursor_size_in_bytes ++ natToBytesLE 4 ptr) := by
  unfold CursorDirectoryEntry.encode
  rw [packU8, packUInt, if_pos (by norm_num; exact hw)]
  simp only [Bind.bind, Except.bind]
  rw [packU8, packUInt, if_pos (by norm_num; exact hh)]
  simp only [Bind.bind, Except.bind]
  rw [show packU8 0 = .ok [0] from rfl]
  simp only [Bind.bind, Except.bind]
  rw [packU16, packUInt, if_pos (by norm_num; exact hx)]
  simp only [Bind.bind, Except.bind]
  rw [packU16, packUInt, if_pos (by norm_num; exact hy)]
  simp only [Bind.bind, Except.bind]
  rw [packU32, packUInt, if_pos (by norm_num; exact hs)]
  simp only [Bind.bind, Except.bind]
  rw [packU32, packUInt, if_pos (by norm_num; exact hp)]

theorem encodeEntries_ok :
    ∀ (entries : List CursorDirectoryEntry) (ptrs : List Nat)
      (cs : List (Nat × Cursor)),
    entries.length = cs.length → ptrs.length = cs.length →
    (∀ e ∈ entries, e.width < 256 ∧ e.height < 256 ∧
      e.cursor_size_in_bytes < 4294967296) →
    (∀ kc ∈ cs, kc.2.x_hotspot < 65536 ∧ kc.2.y_hotspot < 65536) →
    (∀ p ∈ ptrs, p < 4294967296) →
    ∃ out, encodeEntriesLoop (zip3 entries ptrs
        (cs.map fun kc => Resource.cursor kc.2)) = .ok out ∧
      out.length = 16 * cs.length ∧
      ∀ i, i < cs.length → readU32At out (16 * i + 12) = ptrs.getD i 0 := by
  intro entries
  induction entries with
  | nil =>
    intro ptrs cs hel _ _ _ _
    have : cs = [] := List.length_eq_zero.mp (by simpa using hel.symm)
    subst this
    exact ⟨[], rfl, rfl, fun i hi => absurd hi (by simp)⟩
  | cons e rest ih =>
    intro ptrs cs hel hpl hew hhot hptr
    cases cs with
    | nil => simp at hel
    | cons kc csrest =>
      cases ptrs with
      | nil => simp at hpl
      | cons ptr ptrrest =>
        obtain ⟨hw, hh, hs⟩ := hew e (by simp)
        obtain ⟨hx, hy⟩ := hhot kc (by simp)
        have hce := cursorEntry_encode_ok e ptr kc.2.x_hotspot kc.2.y_hotspot
          hw hh hx hy hs (hptr ptr (by simp))
        obtain ⟨outRest, hRest, hRestLen, hRestIdx⟩ := ih ptrrest csrest
          (by simpa using hel) (by simpa using hpl)
          (fun e2 he2 => hew e2 (by simp [he2]))
          (fun kc2 hkc2 => hhot kc2 (by simp [hkc2]))
          (fun p hp => hptr p (by simp [hp]))
        refine ⟨(natToBytesLE 1 e.width ++ natToBytesLE 1 e.height ++
          [0] ++ [0] ++ natToBytesLE 2 kc.2.x_hotspot ++
          natToBytesLE 2 kc.2.y_hotspot ++
          natToBytesLE 4 e.cursor_size_in_bytes ++ natToBytesLE 4 ptr) ++
          outRest, ?_, ?_, ?_⟩
        · simp only [List.map_cons, zip3, encodeEntriesLoop, Resource.xHotspot,
            Resource.yHotspot, Bind.bind, Except.bind, hce, hRest]
        · simp [natToBytesLE_length, hRestLen]
          omega
        · intro i hi
          cases i with
          | zero =>
            rw [show 16 * 0 + 12 = 12 from rfl]
            rw [readU32At_append_left _ _ 12 (by simp [natToBytesLE_length])]
            rw [show (natToBytesLE 1 e.width ++ natToBytesLE 1 e.height ++
              [0] ++ [0] ++ natToBytesLE 2 kc.2.x_hotspot ++
              natToBytesLE 2 kc.2.y_hotspot ++
              natToBytesLE 4 e.cursor_size_in_bytes ++ natToBytesLE 4 ptr) =
              (natToBytesLE 1 e.width ++ natToBytesLE 1 e.height ++
              [0] ++ [0] ++ natToBytesLE 2 kc.2.x_hotspot ++
              natToBytesLE 2 kc.2.y_hotspot ++
              natToBytesLE 4 e.cursor_size_in_bytes) ++ natToBytesLE 4 ptr
              from rfl]
            rw [show (12 : Nat) = (natToBytesLE 1 e.width ++
              natToBytesLE 1 e.height ++ [0] ++ [0] ++
              natToBytesLE 2 kc.2.x_hotspot ++ natToBytesLE 2 kc.2.y_hotspot ++
              natToBytesLE 4 e.cursor_size_in_bytes).length + 0
              from by simp [natToBytesLE_length], readU32At_append_right]
            simp only [List.getD_cons_zero]
            exact readU32At_bytesLE ptr (by norm_num; exact hptr ptr (by simp))
          | succ i =>
            rw [show 16 * (i + 1) + 12 = (natToBytesLE 1 e.width ++
              natToBytesLE 1 e.height ++ [0] ++ [0] ++
              natToBytesLE 2 kc.2.x_hotspot ++ natToBytesLE 2 kc.2.y_hotspot ++
              natToBytesLE 4 e.cursor_size_in_bytes ++
              natToBytesLE 4 ptr).length + (16 * i + 12)
              from by simp [natToBytesLE_length]; omega, readU32At_append_right]
            rw [hRestIdx i (by simpa using hi)]
            simp

/-- C4 as amended: re-exporting a decoded GroupCursor writes one CUR
container in which each member's stored 32-bit image start offset (bytes
12..15 of its 16-byte directory entry) equals the directory length
(6 + 16·n) plus the payload lengths of all prior members in directory
order, and whose total length is the sum of the 6 header bytes, the 16
bytes per directory entry and all payload bytes.  GroupIcon.export does
NOT have this property: it writes one single-entry ICO per member to the
same path (see the counterexample).  The hypotheses are the zip alignment
(member ids distinct so the dict kept them all) and the ranges Python
pack calls enforce. -/
theorem c4_group_cursor_layout (dir : CursorDirectory)
    (cs : List (Nat × Cursor)) (filepath : String)
    (hcount : dir.cursor_count = cs.length)
    (hentries : dir.directory_entries.length = cs.length)
    (hsig : dir.signature < 65536) (htype : dir.type < 65536)
    (hcountlt : cs.length < 65536)
    (hew : ∀ e ∈ dir.directory_entries, e.width < 256 ∧ e.height < 256 ∧
      e.cursor_size_in_bytes < 4294967296)
    (hhot : ∀ kc ∈ cs, kc.2.x_hotspot < 65536 ∧ kc.2.y_hotspot < 65536)
    (htot : 6 + 16 * cs.length +
      (cs.map fun kc => kc.2.data.length).sum < 4294967296) :
    ∃ content,
      GroupCursor.export dir (cs.map fun kc => (kc.1, Resource.cursor kc.2))
        filepath = .ok [(groupCursorExportPath filepath, content)] ∧
      content.length = 6 + 16 * cs.length +
        (cs.map fun kc => kc.2.data.length).sum ∧
      ∀ i, i < cs.length →
        readU32At content (6 + 16 * i + 12) = 6 + 16 * cs.length +
          ((cs.map fun kc => kc.2.data.length).take i).sum := by
  have hbase : dir.length_in_bytes = 6 + 16 * cs.length := by
    unfold CursorDirectory.length_in_bytes CursorDirectory.MINIMUM_LENGTH_IN_BYTES
      CursorDirectoryEntry.LENGTH_IN_BYTES
    rw [hcount]
    ring
  have hdirEnc : dir.encode = .ok (natToBytesLE 2 dir.signature ++
      natToBytesLE 2 dir.type ++ natToBytesLE 2 dir.cursor_count) := by
    unfold CursorDirectory.encode
    rw [packU16, packUInt, if_pos (by norm_num; exact hsig)]
    simp only [Bind.bind, Except.bind]
    rw [packU16, packUInt, if_pos (by norm_num; exact htype)]
    simp only [Bind.bind, Except.bind]
    rw [packU16, packUInt, if_pos (by norm_num; rw [hcount]; exact hcountlt)]
  have hptrBound : ∀ p ∈ cumOffsets dir.length_in_bytes
      (cs.map fun kc => kc.2.data.length), p < 4294967296 := by
    intro p hp
    have := cumOffsets_le (cs.map fun kc => kc.2.data.length)
      dir.length_in_bytes p hp
    rw [hbase] at this
    omega
  have hptrsLen : (cumOffsets dir.length_in_bytes
      (cs.map fun kc => kc.2.data.length)).length = cs.length := by
    rw [cumOffsets_length]
    simp
  obtain ⟨entryBytes, hEnc, hEncLen, hEncIdx⟩ := encodeEntries_ok
    dir.directory_entries
    (cumOffsets dir.length_in_bytes (cs.map fun kc => kc.2.data.length))
    cs hentries hptrsLen hew hhot hptrBound
  have hmap : (cs.map fun kc => (kc.1, Resource.cursor kc.2)).map
      (fun p => p.2) = cs.map fun kc => Resource.cursor kc.2 := by
    simp
  refine ⟨(natToBytesLE 2 dir.signature ++ natToBytesLE 2 dir.type ++
      natToBytesLE 2 dir.cursor_count) ++ entryBytes ++
      (cs.map fun kc => kc.2.data).flatten, ?_, ?_, ?_⟩
  · unfold GroupCursor.export
    rw [pointerLoop_cursors cs dir.length_in_bytes]
    simp only [Bind.bind, Except.bind]
    rw [hdirEnc]
    simp only [Bind.bind, Except.bind]
    rw [show ((cs.map fun kc => (kc.1, Resource.cursor kc.2)).map (·.2)) =
      cs.map (fun kc => Resource.cursor kc.2) from hmap, hEnc]
    simp only [Bind.bind, Except.bind]
    rw [payloadLoop_cursors cs]
  · rw [List.length_append, List.length_append, List.length_flatten]
    have h1 : ((cs.map fun kc => kc.2.data).map List.length).sum =
        (cs.map fun kc => kc.2.data.length).sum := by
      rw [List.map_map]
      rfl
    rw [h1, hEncLen]
    simp [natToBytesLE_length]
  · intro i hi
    rw [readU32At_append_left _ _ (6 + 16 * i + 12)
      (by simp [natToBytesLE_length, hEncLen]; omega)]
    rw [show 6 + 16 * i + 12 = (natToBytesLE 2 dir.signature ++
      natToBytesLE 2 dir.type ++ natToBytesLE 2 dir.cursor_count).length +
      (16 * i + 12) from by simp [natToBytesLE_length]; omega,
      readU32At_append_right, hEncIdx i hi,
      cumOffsets_getD (cs.map fun kc => kc.2.data.length)
        dir.length_in_bytes i (by simpa using hi), hbase]

def c4wDir : CursorDirectory :=
  ⟨0, 2, 2, [⟨16, 64, 32, 1, 4, 3, 5⟩, ⟨16, 64, 32, 1, 4, 4, 6⟩]⟩

def c4wCursors : List (Nat × Cursor) :=
  [(5, ⟨false, 8, 9, .num 5, .info ⟨40, 16, 32, 1, 4, 0, 0, 0, 0, 0, 0⟩, false,
    [1, 2, 3]⟩),
   (6, ⟨false, 2, 3, .num 6, .info ⟨40, 16, 32, 1, 4, 0, 0, 0, 0, 0, 0⟩, false,
    [4, 4, 4, 4]⟩)]

/-- Witness for C4 (amended) at a two-member cursor group: member offsets
38 = 6 + 2·16 and 41 = 38 + 3, total length 45 = 6 + 32 + 3 + 4. -/
theorem c4_witness :
    ∃ content, GroupCursor.export c4wDir
        (c4wCursors.map fun kc => (kc.1, Resource.cursor kc.2)) "g" =
        .ok [(groupCursorExportPath "g", content)] ∧
      content.length = 6 + 16 * c4wCursors.length +
        (c4wCursors.map fun kc => kc.2.data.length).sum ∧
      ∀ i, i < c4wCursors.length →
        readU32At content (6 + 16 * i + 12) = 6 + 16 * c4wCursors.length +
          ((c4wCursors.map fun kc => kc.2.data.length).take i).sum :=
  c4_group_cursor_layout c4wDir c4wCursors "g" (by decide) (by decide)
    (by decide) (by decide) (by decide) (by decide) (by decide) (by decide)

theorem parseWithRegistered_icon (s : Stream) (decl : ResourceDeclaration)
    (cache : Cache) : parseWithRegistered (TypeKey.rt .RT_ICON) s decl cache =
      ((Icon.parse s decl).map .icon, cache) := rfl

theorem parseWithRegistered_groupIcon (s : Stream) (decl : ResourceDeclaration)
    (cache : Cache) :
    parseWithRegistered (TypeKey.rt .RT_GROUP_ICON) s decl cache =
      GroupIcon.parse s decl cache := rfl

/-- Parsing the RT_ICON declarations never aborts when every declared data
offset is inside the stream (a failing icon decode falls back to the raw
decoder, which cannot fail), never touches the shared cache, and produces
an entry for every declared id. -/
theorem parseLoop_icon_fills (stream : Stream) :
    ∀ (decls : List ResourceDeclaration) (cache : Cache)
      (resources : ResourceDict) (last : Option Resource),
    (∀ d ∈ decls, d.data_start_offset ≤ stream.data.length) →
    ∃ m, parseResourcesLoop stream (TypeKey.rt .RT_ICON) decls cache
        resources last = .ok (m, cache) ∧
      (∀ key, (dictGet resources key).isSome → (dictGet m key).isSome) ∧
      (∀ d ∈ decls, (dictGet m d.id).isSome) := by
  intro decls
  induction decls with
  | nil =>
    intro cache resources last _
    exact ⟨resources, rfl, fun key h => h, fun d hd => absurd hd (by simp)⟩
  | cons d rest ih =>
    intro cache resources last hoff
    unfold parseResourcesLoop
    rw [seek_succeeds stream d.data_start_offset (hoff d (by simp))]
    simp only [Bind.bind, Except.bind, parseWithRegistered_icon]
    cases hicon : Icon.parse ⟨stream.data, d.data_start_offset⟩ d with
    | ok icn =>
      simp only [Except.map]
      obtain ⟨m, hm, hpres, hfill⟩ := ih cache
        (dictUpdate resources d.id (.icon icn)) (some (.icon icn))
        (fun d2 hd2 => hoff d2 (by simp [hd2]))
      refine ⟨m, hm, ?_, ?_⟩
      · intro key hk
        refine hpres key ?_
        rw [dictGet_update_cases]
        by_cases hkid : key = d.id
        · simp [hkid]
        · rw [if_neg hkid]
          exact hk
      · intro d2 hd2
        rcases List.mem_cons.mp hd2 with hd2 | hd2
        · subst hd2
          exact hpres d2.id (by rw [dictGet_update_self]; rfl)
        · exact hfill d2 hd2
    | error msg =>
      simp only [Except.map]
      rw [seek_succeeds ⟨stream.data, d.data_start_offset⟩ d.data_start_offset
        (hoff d (by simp))]
      simp only [ApplicationDefinedData.parse]
      obtain ⟨m, hm, hpres, hfill⟩ := ih cache
        (dictUpdate resources d.id (.appData
          ⟨((⟨stream.data, d.data_start_offset⟩ : Stream).readBytes
            d.resource_length_in_bytes).1⟩))
        (some (.appData ⟨((⟨stream.data, d.data_start_offset⟩ : Stream).readBytes
            d.resource_length_in_bytes).1⟩))
        (fun d2 hd2 => hoff d2 (by simp [hd2]))
      refine ⟨m, hm, ?_, ?_⟩
      · intro key hk
        refine hpres key ?_
        rw [dictGet_update_cases]
        by_cases hkid : key = d.id
        · simp [hkid]
        · rw [if_neg hkid]
          exact hk
      · intro d2 hd2
        rcases List.mem_cons.mp hd2 with hd2 | hd2
        · subst hd2
          exact hpres d2.id (by rw [dictGet_update_self]; rfl)
        · exact hfill d2 hd2

/-- The per-entry resolution loop of `GroupIcon.__init__` succeeds when
the cache has an RT_ICON dictionary containing every referenced id. -/
theorem groupIconLoop_finds :
    ∀ (n : Nat) (s : Stream) (cache : Cache) (acc : List (Nat × Resource))
      (iconMap : ResourceDict) (entries : List IconDirectoryEntry) (s2 : Stream),
    dictGet cache (TypeKey.rt .RT_ICON) = some iconMap →
    groupIconEntriesPre n s = .ok (entries, s2) →
    (∀ e ∈ entries, ∃ rid, e.icon_resource_id = some rid ∧
      (dictGet iconMap (ResId.num rid)).isSome) →
    ∃ icons, groupIconLoop n s cache acc = .ok (icons, s2) := by
  intro n
  induction n with
  | zero =>
    intro s cache acc iconMap entries s2 _ hpre _
    unfold groupIconEntriesPre at hpre
    cases hpre
    exact ⟨acc, rfl⟩
  | succ n ih =>
    intro s cache acc iconMap entries s2 hmap hpre hrefs
    unfold groupIconEntriesPre at hpre
    obtain ⟨⟨e, s1⟩, hdec, hpre⟩ := bind_ok _ _ _ hpre
    simp only at hpre
    obtain ⟨⟨entriesRest, s2x⟩, hrest, hpre⟩ := bind_ok _ _ _ hpre
    simp only at hpre
    cases hpre
    obtain ⟨rid, hrid, hsome⟩ := hrefs e (by simp)
    cases hfound : dictGet iconMap (ResId.num rid) with
    | none => rw [hfound] at hsome; exact absurd hsome (by simp)
    | some found =>
      unfold groupIconLoop
      rw [hdec]
      simp only [Bind.bind, Except.bind, hrid, Option.getD_some]
      rw [show findResourceById cache (ResId.num rid) (TypeKey.rt .RT_ICON) =
        .ok found from by unfold findResourceById; rw [hmap]; simp [hfound]]
      simp only [Except.bind]
      exact ih s1 cache (dictUpdate acc rid found) iconMap entriesRest s2 hmap
        hrest (fun e2 he2 => hrefs e2 (by simp [he2]))

/-- Parsing the RT_GROUP_ICON declarations: when every declaration's
payload pre-scans as a well-formed group directory whose referenced ids
are all present in the cached RT_ICON dictionary, the loop succeeds, the
cache is unchanged, and every declared id maps to a decoded GroupIcon
(never the raw fallback). -/
theorem parseLoop_groupIcon_fills (stream : Stream) (iconMap : ResourceDict) :
    ∀ (decls : List ResourceDeclaration) (cache : Cache)
      (resources : ResourceDict) (last : Option Resource),
    dictGet cache (TypeKey.rt .RT_ICON) = some iconMap →
    (∀ d ∈ decls, d.data_start_offset ≤ stream.data.length ∧
      ∃ dir entries, readGroupIconDirectory
          ⟨stream.data, d.data_start_offset⟩ = .ok (dir, entries) ∧
        ∀ e ∈ entries, ∃ rid, e.icon_resource_id = some rid ∧
          (dictGet iconMap (ResId.num rid)).isSome) →
    (∀ key r, dictGet resources key = some r →
      ∃ rid dir icons, r = .groupIcon rid dir icons) →
    ∃ gm, parseResourcesLoop stream (TypeKey.rt .RT_GROUP_ICON) decls cache
        resources last = .ok (gm, cache) ∧
      (∀ key r, dictGet gm key = some r →
        ∃ rid dir icons, r = .groupIcon rid dir icons) ∧
      (∀ key, (dictGet resources key).isSome → (dictGet gm key).isSome) ∧
      (∀ d ∈ decls, (dictGet gm d.id).isSome) := by
  intro decls
  induction decls with
  | nil =>
    intro cache resources last _ _ hres
    exact ⟨resources, rfl, hres, fun key h => h, fun d hd => absurd hd (by simp)⟩
  | cons d rest ih =>
    intro cache resources last hmap hdecls hres
    obtain ⟨hoff, dir, entries, hdirscan, hrefs⟩ := hdecls d (by simp)
    unfold readGroupIconDirectory at hdirscan
    obtain ⟨⟨dir0, s1⟩, hdec, hdirscan⟩ := bind_ok _ _ _ hdirscan
    simp only at hdirscan
    obtain ⟨⟨entries0, s2⟩, hpre, hdirscan⟩ := bind_ok _ _ _ hdirscan
    simp only at hdirscan
    cases hdirscan
    obtain ⟨icons, hloop⟩ := groupIconLoop_finds dir.icon_count s1 cache []
      iconMap entries s2 hmap hpre hrefs
    unfold parseResourcesLoop
    rw [seek_succeeds stream d.data_start_offset hoff]
    simp only [Bind.bind, Except.bind, parseWithRegistered_groupIcon]
    rw [show GroupIcon.parse ⟨stream.data, d.data_start_offset⟩ d cache =
      (.ok (.groupIcon d.id dir icons), cache) from by
        unfold GroupIcon.parse
        rw [hdec]
        simp only
        rw [hloop]]
    simp only
    obtain ⟨gm, hgm, hall, hpres, hfill⟩ := ih cache
      (dictUpdate resources d.id (.groupIcon d.id dir icons))
      (some (.groupIcon d.id dir icons)) hmap
      (fun d2 hd2 => hdecls d2 (by simp [hd2]))
      (by
        intro key r hkr
        rw [dictGet_update_cases] at hkr
        by_cases hkid : key = d.id
        · rw [if_pos hkid] at hkr
          cases hkr
          exact ⟨d.id, dir, icons, rfl⟩
        · rw [if_neg hkid] at hkr
          exact hres key r hkr)
    refine ⟨gm, hgm, hall, ?_, ?_⟩
    · intro key hk
      refine hpres key ?_
      rw [dictGet_update_cases]
      by_cases hkid : key = d.id
      · simp [hkid]
      · rw [if_neg hkid]
        exact hk
    · intro d2 hd2
      rcases List.mem_cons.mp hd2 with hd2 | hd2
      · subst hd2
        exact hpres d2.id (by rw [dictGet_update_self]; rfl)
      · exact hfill d2 hd2

/-- C6: materialization processes built-in types in the canonical numeric
order (the `ResourceType` definition order) and only then the remaining
types in file order, so in a resource table whose RT_GROUP_ICON type table
comes BEFORE its RT_ICON type table in file order, materialization still
succeeds and every group-icon declaration materializes as a decoded
GroupIcon with all member references resolved (not as a raw fallback).
The hypotheses say the declarations are well-formed: data offsets inside
the stream, group payloads that scan as directories, and every referenced
member id declared under RT_ICON. -/
theorem c6_dependency_order (stream : Stream) (gtable itable : ResourceTypeTable)
    (hgt : gtable.type_code = TypeKey.rt .RT_GROUP_ICON)
    (hit : itable.type_code = TypeKey.rt .RT_ICON)
    (hioff : ∀ d ∈ itable.resource_declarations,
      d.data_start_offset ≤ stream.data.length)
    (hgdecls : ∀ d ∈ gtable.resource_declarations,
      d.data_start_offset ≤ stream.data.length ∧
      ∃ dir entries, readGroupIconDirectory
          ⟨stream.data, d.data_start_offset⟩ = .ok (dir, entries) ∧
        ∀ e ∈ entries, ∃ rid, e.icon_resource_id = some rid ∧
          ResId.num rid ∈ itable.resource_declarations.map
            (fun d2 => d2.id)) :
    ∃ cache, ResourceTable.materialize stream
        [(TypeKey.rt .RT_GROUP_ICON, gtable), (TypeKey.rt .RT_ICON, itable)] =
        .ok cache ∧
      ∀ d ∈ gtable.resource_declarations, ∃ rid dir icons,
        findResourceById cache d.id (TypeKey.rt .RT_GROUP_ICON) =
          .ok (.groupIcon rid dir icons) := by
  obtain ⟨m, hm, hmpres, hmfill⟩ := parseLoop_icon_fills stream
    itable.resource_declarations [] [] none hioff
  have hiParse : parseResourcesOfType stream itable [] = .ok (m, []) := by
    unfold parseResourcesOfType
    rw [hit]
    exact hm
  obtain ⟨gm, hgmEq, hgmAll, _, hgmFill⟩ := parseLoop_groupIcon_fills stream m
    gtable.resource_declarations [(TypeKey.rt .RT_ICON, m)] [] none
    (by simp [dictGet])
    (by
      intro d hd
      obtain ⟨hoff, dir, entries, hscan, hrefs⟩ := hgdecls d hd
      refine ⟨hoff, dir, entries, hscan, ?_⟩
      intro e he
      obtain ⟨rid, hrid, hmem⟩ := hrefs e he
      obtain ⟨d2, hd2, hd2id⟩ := List.mem_map.mp hmem
      exact ⟨rid, hrid, by rw [← hd2id]; exact hmfill d2 hd2⟩)
    (by intro key r hkr; cases hkr)
  have hgParse : parseResourcesOfType stream gtable [(TypeKey.rt .RT_ICON, m)] =
      .ok (gm, [(TypeKey.rt .RT_ICON, m)]) := by
    unfold parseResourcesOfType
    rw [hgt]
    exact hgmEq
  have hphase1 : materializePhase1 stream
      [(TypeKey.rt .RT_GROUP_ICON, gtable), (TypeKey.rt .RT_ICON, itable)]
      ResourceType.all [] [] =
      .ok ([(TypeKey.rt .RT_ICON, m), (TypeKey.rt .RT_GROUP_ICON, gm)],
        [TypeKey.rt .RT_ICON, TypeKey.rt .RT_GROUP_ICON]) := by
    simp only [ResourceType.all, materializePhase1, dictGet, dictUpdate,
      TypeKey.rt.injEq, hiParse, hgParse, hit, hgt, Bind.bind, Except.bind,
      List.nil_append, List.cons_append, reduceCtorEq, if_false, if_true,
      reduceIte]
  have hphase2 : materializePhase2 stream
      [(TypeKey.rt .RT_GROUP_ICON, gtable), (TypeKey.rt .RT_ICON, itable)]
      [(TypeKey.rt .RT_ICON, m), (TypeKey.rt .RT_GROUP_ICON, gm)]
      [TypeKey.rt .RT_ICON, TypeKey.rt .RT_GROUP_ICON] =
      .ok [(TypeKey.rt .RT_ICON, m), (TypeKey.rt .RT_GROUP_ICON, gm)] := by
    simp [materializePhase2]
  refine ⟨[(TypeKey.rt .RT_ICON, m), (TypeKey.rt .RT_GROUP_ICON, gm)], ?_, ?_⟩
  · unfold ResourceTable.materialize
    rw [hphase1]
    simp only [Bind.bind, Except.bind]
    exact hphase2
  · intro d hd
    have hsome := hgmFill d hd
    cases hgmd : dictGet gm d.id with
    | none => rw [hgmd] at hsome; exact absurd hsome (by simp)
    | some r =>
      obtain ⟨rid, dir, icons, hr⟩ := hgmAll d.id r hgmd
      subst hr
      refine ⟨rid, dir, icons, ?_⟩
      unfold findResourceById
      rw [show dictGet [(TypeKey.rt .RT_ICON, m),
        (TypeKey.rt .RT_GROUP_ICON, gm)] (TypeKey.rt .RT_GROUP_ICON) =
        some gm from by simp [dictGet]]
      simp only
      rw [hgmd]

def c6gTable : ResourceTypeTable :=
  ⟨.rt .RT_GROUP_ICON, [⟨40, 20, 0, .num 1⟩]⟩

def c6iTable : ResourceTypeTable :=
  ⟨.rt .RT_ICON, [⟨0, 40, 0, .num 1⟩]⟩

/-- Witness for C6: a concrete table in which the RT_GROUP_ICON type table
precedes the RT_ICON type table in file order still materializes with the
group reference to icon 1 resolved. -/
theorem c6_witness :
    ∃ cache, ResourceTable.materialize c1Stream
        [(TypeKey.rt .RT_GROUP_ICON, c6gTable), (TypeKey.rt .RT_ICON, c6iTable)] =
        .ok cache ∧
      ∀ d ∈ c6gTable.resource_declarations, ∃ rid dir icons,
        findResourceById cache d.id (TypeKey.rt .RT_GROUP_ICON) =
          .ok (.groupIcon rid dir icons) :=
  c6_dependency_order c1Stream c6gTable c6iTable rfl rfl
    (by
      intro d hd
      rw [show c6iTable.resource_declarations = [⟨0, 40, 0, .num 1⟩]
        from rfl, List.mem_singleton] at hd
      subst hd
      decide)
    (by
      intro d hd
      rw [show c6gTable.resource_declarations = [⟨40, 20, 0, .num 1⟩]
        from rfl, List.mem_singleton] at hd
      subst hd
      refine ⟨by decide, ⟨0, 1, 1⟩, [⟨16, 16, 0, 1, 4, 40, some 1, none⟩],
        rfl, ?_⟩
      intro e he
      rw [List.mem_singleton] at he
      subst he
      exact ⟨1, rfl, by decide⟩)

end NE
